import Mathlib

/-!
# osv-scanner: the post-extraction filter pipeline

A shallow embedding of `pkg/osvscanner/filter.go`.  Go slices are lists (a nil
slice and an empty slice are both the empty list), the `map[string]struct{}`
suppression set is a list of ids queried by membership,
every `for ... range` loop is a left fold whose accumulator is the loop's
mutable state, and each `cmdlogger.Infof` call appends its rendered line to a
log that the embedded function returns next to its result.

The record types and the configuration look-ups live in packages outside this
file (`imodels`, `results`, `models`, `config`, `osvschema`); they are modelled
here by the fields and methods that `filter.go` reads.

The Maven version comparator and the batch matcher have only their tests among
the sources; their definitions are marked as modelled from the specification.
-/

namespace OsvScanner

/-! ## Data model -/

/-- Parsed ecosystem as returned by `PackageInfo.Ecosystem()`: the base
ecosystem name and an optional suffix. -/
structure Parsed where
  Ecosystem : String
  Suffix : String
  deriving DecidableEq, Repr

/-- The `osvschema.EcosystemMaven` constant. -/
def EcosystemMaven : String := "Maven"

/-- Emptiness test `Parsed.IsEmpty()`: no base ecosystem is set. -/
def Parsed.IsEmpty (e : Parsed) : Bool := e.Ecosystem == ""

/-- Rendering `Parsed.String()`, used only in log lines: the base ecosystem
followed by `:suffix` when a suffix is present. -/
def Parsed.String (e : Parsed) : String :=
  if e.Suffix != "" then e.Ecosystem ++ ":" ++ e.Suffix else e.Ecosystem

/-- The values of the accessor methods of `imodels.PackageInfo` that the
filters read: `Ecosystem()`, `Name()`, `Version()`, `Commit()`, `Location()`. -/
structure PackageInfo where
  Ecosystem : Parsed
  Name : String
  Version : String
  Commit : String
  Location : String
  deriving DecidableEq, Repr

/-- An `osvschema.Vulnerability` record; the filter reads only `ID`. -/
structure Vulnerability where
  ID : String
  Summary : String
  Aliases : List String
  deriving DecidableEq, Repr

/-- A `models.GroupInfo`: ids and aliases deemed to denote one vulnerability. -/
structure GroupInfo where
  IDs : List String
  Aliases : List String
  MaxSeverity : String
  deriving DecidableEq, Repr

/-- A `config.IgnoreEntry`: the id a rule is keyed on and its optional reason. -/
structure IgnoreEntry where
  ID : String
  Reason : String
  deriving DecidableEq, Repr

/-- A `config.Config`, seen through the two look-ups the filters call.  Their
bodies are outside this file, so each is a field: a function from the queried
value to the `(matched, entry)` pair that the Go method returns. -/
structure Config where
  ShouldIgnore : String → Bool × IgnoreEntry
  ShouldIgnorePackage : PackageInfo → Bool × IgnoreEntry

/-- A `config.Manager`, seen through `Get(path)`, which resolves the Config in
force for a path. -/
structure ConfigManager where
  Get : String → Config

/-- An `imodels.PackageScanResult`: a package with its accumulated matcher
output. -/
structure PackageScanResult where
  PackageInfo : PackageInfo
  Vulnerabilities : List Vulnerability
  Licenses : List String
  deriving DecidableEq, Repr

/-- The `results.ScanResults` record that the package-level stages rewrite. -/
structure ScanResults where
  PackageScanResults : List PackageScanResult
  ConfigManager : ConfigManager

/-- A `models.PackageVulns`: one package of the rendered report. -/
structure PackageVulns where
  Package : PackageInfo
  DepGroups : List String
  Vulnerabilities : List Vulnerability
  Groups : List GroupInfo
  Licenses : List String
  LicenseViolations : List String
  deriving DecidableEq, Repr

/-- A `models.SourceInfo`: where a group of packages was found (`SourceType`
is the Go field `Type`, a reserved word here). -/
structure SourceInfo where
  Path : String
  SourceType : String
  deriving DecidableEq, Repr

/-- A `models.PackageSource`: a source together with its packages. -/
structure PackageSource where
  Source : SourceInfo
  Packages : List PackageVulns
  deriving DecidableEq, Repr

/-- A `models.VulnerabilityResults`: the rendered report. -/
structure VulnerabilityResults where
  Results : List PackageSource
  LicenseSummary : List String
  deriving DecidableEq, Repr

/-! ## Package-level stages -/

/-- Loop body of `filterUnscannablePackages` (filter.go 19-32): the `switch`
falls through to the `append` on any of its three cases and `continue`s on
`default`. -/
def filterUnscannableStep (packageResults : List PackageScanResult)
    (psr : PackageScanResult) : List PackageScanResult :=
  let p := psr.PackageInfo
  if !p.Ecosystem.IsEmpty && p.Name != "" && p.Version != "" then packageResults ++ [psr]
  else if p.Commit != "" then packageResults ++ [psr]
  else if p.Ecosystem.Ecosystem == EcosystemMaven && p.Name == "unknown" then
    packageResults ++ [psr]
  else packageResults

/-- Embedding of `filterUnscannablePackages` (filter.go 16-39): the rewritten
scan results and the log lines emitted. -/
def filterUnscannablePackages (scanResults : ScanResults) : ScanResults × List String :=
  let originalPackages := scanResults.PackageScanResults
  let packageResults := originalPackages.foldl filterUnscannableStep []
  let log :=
    if packageResults.length != originalPackages.length then
      ["Filtered " ++ toString ((originalPackages.length : Int) - packageResults.length)
        ++ " local/unscannable package/s from the scan."]
    else []
  ({ scanResults with PackageScanResults := packageResults }, log)

/-- Loop body of `filterNonContainerRelevantPackages` (filter.go 45-55). -/
def filterNonContainerStep (packageResults : List PackageScanResult)
    (psr : PackageScanResult) : List PackageScanResult :=
  let p := psr.PackageInfo
  if p.Name == "linux" then packageResults else packageResults ++ [psr]

/-- Embedding of `filterNonContainerRelevantPackages` (filter.go 42-62). -/
def filterNonContainerRelevantPackages (scanResults : ScanResults) :
    ScanResults × List String :=
  let originalPackages := scanResults.PackageScanResults
  let packageResults := originalPackages.foldl filterNonContainerStep []
  let log :=
    if packageResults.length != originalPackages.length then
      ["Filtered " ++ toString ((originalPackages.length : Int) - packageResults.length)
        ++ " non container relevant package/s from the scan."]
    else []
  ({ scanResults with PackageScanResults := packageResults }, log)

/-- Loop body of `filterIgnoredPackages` (filter.go 70-86); the state is the
kept packages `out` and the log so far. -/
def filterIgnoredStep (configManager : ConfigManager)
    (st : List PackageScanResult × List String) (psr : PackageScanResult) :
    List PackageScanResult × List String :=
  let p := psr.PackageInfo
  let configToUse := configManager.Get p.Location
  match configToUse.ShouldIgnorePackage p with
  | (true, ignoreLine) =>
    let pkgString := p.Ecosystem.String ++ "/" ++ p.Name ++ "/" ++ p.Version
    let reason := if ignoreLine.Reason == "" then "(no reason given)" else ignoreLine.Reason
    (st.1, st.2 ++ ["Package " ++ pkgString ++ " has been filtered out because: " ++ reason])
  | (false, _) => (st.1 ++ [psr], st.2)

/-- Embedding of `filterIgnoredPackages` (filter.go 65-93). -/
def filterIgnoredPackages (scanResults : ScanResults) : ScanResults × List String :=
  let configManager := scanResults.ConfigManager
  let originalPackages := scanResults.PackageScanResults
  let st := originalPackages.foldl (filterIgnoredStep configManager) ([], [])
  let out := st.1
  let log :=
    if out.length != originalPackages.length then
      st.2 ++ ["Filtered " ++ toString ((originalPackages.length : Int) - out.length)
        ++ " ignored package/s from the scan."]
    else st.2
  ({ scanResults with PackageScanResults := out }, log)

/-! ## Vulnerability-level stage -/

/-- Inner alias loop of `filterPackageVulns` (filter.go 129-154) up to its
`break`: the ignore entry returned by `ShouldIgnore` for the first alias, in
alias order, on which it reports a match; `none` when the loop runs to its end,
which leaves the Go variable `ignore` false. -/
def firstIgnoreLine (configToUse : Config) : List String → Option IgnoreEntry
  | [] => none
  | id :: rest =>
    match configToUse.ShouldIgnore id with
    | (true, ignoreLine) => some ignoreLine
    | (false, _) => firstIgnoreLine configToUse rest

/-- Mutable state of the group loop of `filterPackageVulns`: the suppression
set `ignoredVulns`, the surviving groups `newGroups`, and the log so far. -/
structure GroupLoopState where
  ignoredVulns : List String
  newGroups : List GroupInfo
  log : List String
  deriving DecidableEq, Repr

/-- Body of the group loop of `filterPackageVulns` (filter.go 127-158). -/
def filterGroupStep (configToUse : Config) (st : GroupLoopState) (group : GroupInfo) :
    GroupLoopState :=
  match firstIgnoreLine configToUse group.Aliases with
  | some ignoreLine =>
    let reason := if ignoreLine.Reason == "" then "(no reason given)" else ignoreLine.Reason
    let line :=
      match group.Aliases.length with
      | 1 => ignoreLine.ID ++ " has been filtered out because: " ++ reason
      | 2 => ignoreLine.ID ++ " and 1 alias have been filtered out because: " ++ reason
      | n => ignoreLine.ID ++ " and " ++ toString ((n : Int) - 1)
              ++ " aliases have been filtered out because: " ++ reason
    { st with ignoredVulns := st.ignoredVulns ++ group.Aliases, log := st.log ++ [line] }
  | none => { st with newGroups := st.newGroups ++ [group] }

/-- Body of the vulnerability loop of `filterPackageVulns` (filter.go 162-166):
a vulnerability is appended unless its id is in the suppression set. -/
def filterVulnStep (ignoredVulns : List String) (newVulns : List Vulnerability)
    (vuln : Vulnerability) : List Vulnerability :=
  if vuln.ID ∈ ignoredVulns then newVulns else newVulns ++ [vuln]

/-- Embedding of `filterPackageVulns` (filter.go 122-174): the filtered copy of
the package and the log lines emitted. -/
def filterPackageVulns (pkgVulns : PackageVulns) (configToUse : Config) :
    PackageVulns × List String :=
  let st := pkgVulns.Groups.foldl (filterGroupStep configToUse) ⟨[], [], []⟩
  let newGroups := st.newGroups
  let newVulns :=
    if newGroups.length > 0 then
      pkgVulns.Vulnerabilities.foldl (filterVulnStep st.ignoredVulns) []
    else []
  ({ pkgVulns with Groups := newGroups, Vulnerabilities := newVulns }, st.log)

/-- Mutable state of the package loop of `filterResults`: the running
`removedCount`, the packages kept for the current source, and the log.  The Go
counter is a machine `int`; it is bounded by the number of vulnerability
records held in memory, so it is an unbounded integer here. -/
structure PackageLoopState where
  removedCount : Int
  newPackages : List PackageVulns
  log : List String
  deriving DecidableEq, Repr

/-- Body of the package loop of `filterResults` (filter.go 103-109). -/
def filterResultsPackageStep (configToUse : Config) (allPackages : Bool)
    (st : PackageLoopState) (pkgVulns : PackageVulns) : PackageLoopState :=
  let r := filterPackageVulns pkgVulns configToUse
  let newVulns := r.1
  let removedCount := st.removedCount
    + ((pkgVulns.Vulnerabilities.length : Int) - newVulns.Vulnerabilities.length)
  if allPackages || newVulns.Vulnerabilities.length > 0
      || pkgVulns.LicenseViolations.length > 0 then
    ⟨removedCount, st.newPackages ++ [newVulns], st.log ++ r.2⟩
  else ⟨removedCount, st.newPackages, st.log ++ r.2⟩

/-- Mutable state of the source loop of `filterResults`. -/
structure SourceLoopState where
  removedCount : Int
  newResults : List PackageSource
  log : List String
  deriving DecidableEq, Repr

/-- Body of the source loop of `filterResults` (filter.go 99-115). -/
def filterResultsSourceStep (configManager : ConfigManager) (allPackages : Bool)
    (st : SourceLoopState) (pkgSrc : PackageSource) : SourceLoopState :=
  let configToUse := configManager.Get pkgSrc.Source.Path
  let inner := pkgSrc.Packages.foldl (filterResultsPackageStep configToUse allPackages)
    ⟨st.removedCount, [], st.log⟩
  if inner.newPackages.length > 0 then
    ⟨inner.removedCount, st.newResults ++ [{ pkgSrc with Packages := inner.newPackages }],
      inner.log⟩
  else ⟨inner.removedCount, st.newResults, inner.log⟩

/-- What a call of `filterResults` leaves behind: the rewritten results (the Go
code updates them in place), the returned removed count, and the log lines. -/
structure FilterResultsOutcome where
  results : VulnerabilityResults
  removedCount : Int
  log : List String
  deriving DecidableEq, Repr

/-- Embedding of `filterResults` (filter.go 96-119). -/
def filterResults (results : VulnerabilityResults) (configManager : ConfigManager)
    (allPackages : Bool) : FilterResultsOutcome :=
  let st := results.Results.foldl (filterResultsSourceStep configManager allPackages)
    ⟨0, [], []⟩
  ⟨{ results with Results := st.newResults }, st.removedCount, st.log⟩

/-! ## Maven version comparator -/

/-- Modelled from the spec: `resolve.VersionKey`, the comparator's unit of
identity (spec section 3): ecosystem, package name and raw version string.
The type is declared outside the sources. -/
structure VersionKey where
  System : String
  Name : String
  Version : String
  deriving DecidableEq, Repr

/-- Modelled from the spec: the two documented override classes of spec
section 4.4, a release channel carried by an `-android` / `-jre` qualifier and
date-like version numbers. -/
inductive Override where
  | flavour
  | dateLike
  deriving DecidableEq, Repr

/-- Modelled from the spec: the immutable mapping from package identity to its
override (spec sections 4.4 and 9).  The table itself is not among the sources;
its entries are the two overridden packages that `TestCompareVersions`
(maven_test.go 105-152) exercises. -/
def overrideTable : List (String × Override) :=
  [("com.google.guava:guava", Override.flavour), ("commons-io:commons-io", Override.dateLike)]

/-- Suffix test on version strings, as Go `strings.HasSuffix`. -/
def endsWith (v ending : String) : Bool := ending.toList.isSuffixOf v.toList

/-- Modelled from the spec: `maven.CompareVersions` (internal/utility/maven),
whose body is not among the sources.  Spec section 4.4 gives the dispatch: the
override table is consulted before the native algorithm, which is used
whenever no override decides.  `native` is the Maven ordering of the external
semver library, a parameter here.  `dateLike` is the test by which the
date-like override tells a date-like version from a standard release; the
spec names only the example "20010101.000000" and no source states the test,
so it is a parameter as well.  What each override returns is fixed by the
rows of `TestCompareVersions` (maven_test.go 93-152): for guava, two versions of
different flavour are ordered by flavour alone, the flavour of the key's own
version ranking higher (rows 123-140); for commons-io, a date-like version and
one that is not are ordered by that alone, the date-like one ranking lower
(row 147-152). -/
def CompareVersions (native : String → String → Int) (dateLike : String → Bool)
    (vk : VersionKey) (a b : String) : Int :=
  match overrideTable.lookup vk.Name with
  | some Override.flavour =>
    let wantAndroid := endsWith vk.Version "-android"
    let aIsAndroid := endsWith a "-android"
    let bIsAndroid := endsWith b "-android"
    if aIsAndroid == bIsAndroid then native a b
    else if aIsAndroid == wantAndroid then 1
    else -1
  | some Override.dateLike =>
    let aCal := dateLike a
    let bCal := dateLike b
    if aCal == bCal then native a b
    else if aCal then -1
    else 1
  | none => native a b

/-- A stand-in for the date test in concrete evaluations: it classes as
date-like the one version that the specification names, and no other. -/
def exampleDateLike (v : String) : Bool := v == "20010101.000000"

/-- The number a version string begins with (0 when it begins with no digit). -/
def leadingNumber (v : String) : Nat :=
  (v.toList.takeWhile Char.isDigit).foldl (fun n c => 10 * n + (c.toNat - 48)) 0

/-- A stand-in for the native ordering in concrete evaluations: versions are
compared by the number they begin with. -/
def exampleNative (a b : String) : Int :=
  if leadingNumber a < leadingNumber b then -1
  else if leadingNumber a = leadingNumber b then 0
  else 1

/-- The guava key of the given version. -/
def guavaKey (version : String) : VersionKey := ⟨"Maven", "com.google.guava:guava", version⟩

/-- The commons-io key of the test rows. -/
def commonsIoKey : VersionKey := ⟨"Maven", "commons-io:commons-io", "1.0.0"⟩

/-! ## Resilient batch matcher -/

/-- Modelled from the spec: the outcome of one remote lookup attempt, as the
retry policy of spec section 4.3 classifies it: a result, a transient failure
(network error, 5xx, rate limit) or a permanent one (other 4xx, malformed
response).  The matcher bodies are not among the sources. -/
inductive LookupOutcome (β : Type) where
  | found (result : β)
  | transient
  | permanent

/-- Modelled from the spec: the `MatcherConfig` fields of spec section 3 that
are not durations.  The backoff and jitter multipliers are floating-point
factors that only set the waiting time between attempts. -/
structure MatcherConfig where
  MaxRetryAttempts : Nat
  MaxConcurrentBatchRequests : Nat
  UserAgent : String
  deriving DecidableEq, Repr

/-- Modelled from the spec: the lookup of one item under the retry policy of
spec section 4.3.  A result is returned as it is; a permanent failure is never
retried and yields `noMatch`; a transient failure is retried while retries are
left and yields `noMatch` once they are exhausted.  `lookup item n` is the
outcome of the n-th attempt for the item. -/
def matchItem {α β : Type} (noMatch : β) (lookup : α → Nat → LookupOutcome β) (item : α) :
    (retriesLeft : Nat) → (attempt : Nat) → β
  | 0, attempt =>
    match lookup item attempt with
    | LookupOutcome.found result => result
    | LookupOutcome.transient => noMatch
    | LookupOutcome.permanent => noMatch
  | retriesLeft + 1, attempt =>
    match lookup item attempt with
    | LookupOutcome.found result => result
    | LookupOutcome.transient => matchItem noMatch lookup item retriesLeft (attempt + 1)
    | LookupOutcome.permanent => noMatch

/-- Modelled from the spec: `MatchBatch` of the resilient batch matcher (spec
sections 4.3 and 5), whose body is not among the sources.  The result container
is pre-sized with one `noMatch` entry per item, and the worker of item `i`
writes the outcome of that item into slot `i` and nowhere else.
`completionOrder` lists the indices in the order in which the workers finish;
an index that was never dispatched (cancellation) is absent from it. -/
def MatchBatch {α β : Type} (config : MatcherConfig) (noMatch : β)
    (lookup : α → Nat → LookupOutcome β) (items : List α) (completionOrder : List Nat) :
    List β :=
  completionOrder.foldl
    (fun results i =>
      match items[i]? with
      | some item => results.set i (matchItem noMatch lookup item config.MaxRetryAttempts 0)
      | none => results)
    (List.replicate items.length noMatch)

/-- A remote that fails permanently on every attempt for every item. -/
def alwaysPermanent : String → Nat → LookupOutcome (List String) :=
  fun _ _ => LookupOutcome.permanent

/-- A remote that knows the licence of `left-pad` after one transient failure
and fails permanently for everything else. -/
def flakyLicences : String → Nat → LookupOutcome (List String) :=
  fun item attempt =>
    if item == "left-pad" then
      (if attempt == 0 then LookupOutcome.transient else LookupOutcome.found ["MIT"])
    else LookupOutcome.permanent

/-- A matcher configuration with two retries and four workers. -/
def exampleMatcherConfig : MatcherConfig := ⟨2, 4, "osv-scanner"⟩

/-! ## The loops read as filters and sums -/

/-- Keep test of the unscannable-package stage, as the `switch` computes it. -/
def scannable (psr : PackageScanResult) : Bool :=
  let p := psr.PackageInfo
  (!p.Ecosystem.IsEmpty && p.Name != "" && p.Version != "") || p.Commit != ""
    || (p.Ecosystem.Ecosystem == EcosystemMaven && p.Name == "unknown")

/-- Whether the alias loop marks a group as ignored: some alias of the group is
matched by `ShouldIgnore`. -/
def groupIgnored (configToUse : Config) (group : GroupInfo) : Bool :=
  group.Aliases.any (fun id => (configToUse.ShouldIgnore id).1)

/-- The suppression set built from a list of groups: every alias of every
ignored group, in group order. -/
def suppressedIds (configToUse : Config) (groups : List GroupInfo) : List String :=
  (groups.filter (groupIgnored configToUse)).flatMap (fun g => g.Aliases)

/-- Test of filter.go line 106: whether the package loop of `filterResults`
appends the filtered package to the report. -/
def keepsPackage (allPackages : Bool) (configToUse : Config) (pkgVulns : PackageVulns) : Bool :=
  allPackages || (filterPackageVulns pkgVulns configToUse).1.Vulnerabilities.length > 0
    || pkgVulns.LicenseViolations.length > 0

/-- Increment of filter.go line 105: vulnerabilities the package had minus
those surviving `filterPackageVulns`. -/
def removedFrom (configToUse : Config) (pkgVulns : PackageVulns) : Int :=
  (pkgVulns.Vulnerabilities.length : Int)
    - (filterPackageVulns pkgVulns configToUse).1.Vulnerabilities.length

/-- The packages of one source that reach the report, filtered. -/
def reportedPackages (configManager : ConfigManager) (allPackages : Bool)
    (pkgSrc : PackageSource) : List PackageVulns :=
  (pkgSrc.Packages.filter (keepsPackage allPackages (configManager.Get pkgSrc.Source.Path))).map
    (fun p => (filterPackageVulns p (configManager.Get pkgSrc.Source.Path)).1)

/-- Total number of vulnerability records over all packages of a list of
package sources. -/
def totalVulnerabilities (sources : List PackageSource) : Int :=
  (sources.map (fun pkgSrc =>
    (pkgSrc.Packages.map (fun pkgVulns => (pkgVulns.Vulnerabilities.length : Int))).sum)).sum

/-- The text of the informational message for an ignored group, written from
the words of the specification (section 4.2, stage 4): the id of the ignore
entry, the number of further aliases when the group has more than one, and
the entry's reason, "(no reason given)" when it is empty. -/
def filteredOutMessage (entry : IgnoreEntry) (aliasCount : Nat) : String :=
  let reason := if entry.Reason = "" then "(no reason given)" else entry.Reason
  if aliasCount = 1 then entry.ID ++ " has been filtered out because: " ++ reason
  else if aliasCount = 2 then entry.ID ++ " and 1 alias have been filtered out because: " ++ reason
  else entry.ID ++ " and " ++ toString (aliasCount - 1)
    ++ " aliases have been filtered out because: " ++ reason

/-- The informational message that the specification prescribes for one group,
written from its words and not from the loop: none when no alias matches;
otherwise the message built from the ignore entry of the first alias, in
alias order, that `ShouldIgnore` matches. -/
def ignoredGroupMessage (configToUse : Config) (group : GroupInfo) : Option String :=
  match group.Aliases.find? (fun id => (configToUse.ShouldIgnore id).1) with
  | none => none
  | some id => some (filteredOutMessage (configToUse.ShouldIgnore id).2 group.Aliases.length)

/-! ## Examples used by the concrete statements -/

/-- A package scan result with no matcher output and no location. -/
def examplePackage (ecosystem name version commit : String) : PackageScanResult :=
  ⟨⟨⟨ecosystem, ""⟩, name, version, commit, ""⟩, [], []⟩

/-- A Config that ignores nothing. -/
def ignoreNothing : Config :=
  ⟨fun _ => (false, ⟨"", ""⟩), fun _ => (false, ⟨"", ""⟩)⟩

/-- A Config whose only rule ignores the vulnerability id `GHSA-1`. -/
def ignoreGhsa1 : Config :=
  ⟨fun id => if id == "GHSA-1" then (true, ⟨"GHSA-1", "accepted risk"⟩) else (false, ⟨"", ""⟩),
   fun _ => (false, ⟨"", ""⟩)⟩

/-- The three-package input of the unscannable-filter scenario. -/
def scenarioPackages : List PackageScanResult :=
  [examplePackage "" "" "" "", examplePackage "npm" "left-pad" "1.0.0" "",
   examplePackage "" "" "" "abc123"]

/-- The alias group {CVE-1, GHSA-1} of the suppression scenario. -/
def cveGhsaGroup : GroupInfo := ⟨["CVE-1"], ["CVE-1", "GHSA-1"], "7.5"⟩

/-- A vulnerability record with the given id and nothing else. -/
def exampleVuln (id : String) : Vulnerability := ⟨id, "", []⟩

/-- A package whose only group is {CVE-1, GHSA-1}, with one record per alias. -/
def cveGhsaPackage : PackageVulns :=
  ⟨⟨⟨"npm", ""⟩, "left-pad", "1.0.0", "", "package-lock.json"⟩, [],
   [exampleVuln "CVE-1", exampleVuln "GHSA-1"], [cveGhsaGroup], [], []⟩

/-- A package with the group {CVE-1, GHSA-1}, a second group {OSV-7}, and one
record per alias of both. -/
def twoGroupPackage : PackageVulns :=
  ⟨⟨⟨"npm", ""⟩, "left-pad", "1.0.0", "", "package-lock.json"⟩, [],
   [exampleVuln "CVE-1", exampleVuln "OSV-7", exampleVuln "GHSA-1"],
   [cveGhsaGroup, ⟨["OSV-7"], ["OSV-7"], ""⟩], [], []⟩

/-- A package whose only group is {CVE-1, GHSA-1} but which also carries a
record `OSV-7` that belongs to no group. -/
def strayRecordPackage : PackageVulns :=
  ⟨⟨⟨"npm", ""⟩, "left-pad", "1.0.0", "", "package-lock.json"⟩, [],
   [exampleVuln "CVE-1", exampleVuln "GHSA-1", exampleVuln "OSV-7"], [cveGhsaGroup], [], []⟩

/-- A manager that resolves every path to the Config ignoring `GHSA-1`. -/
def ghsa1Manager : ConfigManager := ⟨fun _ => ignoreGhsa1⟩

/-- A package with no groups and no vulnerability records. -/
def cleanPackage : PackageVulns :=
  ⟨⟨⟨"npm", ""⟩, "lodash", "4.17.21", "", "package-lock.json"⟩, [], [], [], [], []⟩

/-- The source that the example packages are reported under. -/
def lockfileSource : SourceInfo := ⟨"package-lock.json", "lockfile"⟩

/-- A package in which the alias `CVE-1` belongs to two groups: {CVE-1, GHSA-1}
and {CVE-1, OSV-7}. -/
def overlapPackage : PackageVulns :=
  ⟨⟨⟨"npm", ""⟩, "left-pad", "1.0.0", "", "package-lock.json"⟩, [],
   [exampleVuln "CVE-1", exampleVuln "OSV-7"],
   [cveGhsaGroup, ⟨["OSV-7"], ["CVE-1", "OSV-7"], ""⟩], [], []⟩

/-- A manager that resolves every path to the Config ignoring nothing. -/
def nothingManager : ConfigManager := ⟨fun _ => ignoreNothing⟩

/-- A Config with four vulnerability rules: `GHSA-1` with a reason, `CVE-9`
without one, and `OSV-3` and `OSV-4` with different reasons. -/
def ignoreSeveral : Config :=
  ⟨fun id =>
      if id == "GHSA-1" then (true, ⟨"GHSA-1", "accepted risk"⟩)
      else if id == "CVE-9" then (true, ⟨"CVE-9", ""⟩)
      else if id == "OSV-3" then (true, ⟨"OSV-3", "first rule"⟩)
      else if id == "OSV-4" then (true, ⟨"OSV-4", "second rule"⟩)
      else (false, ⟨"", ""⟩),
   fun _ => (false, ⟨"", ""⟩)⟩

/-- A package with four groups: two aliases with the second ignored, one
ignored alias whose rule has no reason, four aliases of which the second and
third are ignored by different rules, and one group that no rule matches. -/
def severalGroupsPackage : PackageVulns :=
  ⟨⟨⟨"npm", ""⟩, "left-pad", "1.0.0", "", "package-lock.json"⟩, [],
   [exampleVuln "CVE-1", exampleVuln "CVE-9", exampleVuln "OSV-2", exampleVuln "SAFE-1"],
   [cveGhsaGroup, ⟨["CVE-9"], ["CVE-9"], ""⟩,
    ⟨["OSV-2"], ["OSV-2", "OSV-3", "OSV-4", "OSV-5"], ""⟩, ⟨["SAFE-1"], ["SAFE-1"], ""⟩],
   ["MIT"], []⟩

/-! ## Loop lemmas -/

/-- A loop that appends the elements passing a test computes a filter. -/
theorem foldl_append_if {α : Type} (keep : α → Bool) (l : List α) (acc : List α) :
    l.foldl (fun acc x => if keep x then acc ++ [x] else acc) acc = acc ++ l.filter keep := by
  induction l generalizing acc with
  | nil => simp
  | cons x xs ih =>
    simp only [List.foldl_cons, ih, List.filter_cons]
    by_cases h : keep x = true <;> simp [h]

theorem filterUnscannableStep_eq (acc : List PackageScanResult) (psr : PackageScanResult) :
    filterUnscannableStep acc psr = if scannable psr then acc ++ [psr] else acc := by
  unfold filterUnscannableStep scannable
  by_cases h1 : (!psr.PackageInfo.Ecosystem.IsEmpty && psr.PackageInfo.Name != ""
      && psr.PackageInfo.Version != "") = true
  · simp [h1]
  · by_cases h2 : (psr.PackageInfo.Commit != "") = true
    · simp [h1, h2]
    · by_cases h3 : (psr.PackageInfo.Ecosystem.Ecosystem == EcosystemMaven
          && psr.PackageInfo.Name == "unknown") = true
      · simp [h1, h2, h3]
      · simp [h1, h2, h3]

theorem foldl_filterUnscannableStep (l acc : List PackageScanResult) :
    l.foldl filterUnscannableStep acc = acc ++ l.filter scannable := by
  have h : filterUnscannableStep = fun acc x => if scannable x then acc ++ [x] else acc := by
    funext acc x; exact filterUnscannableStep_eq acc x
  rw [h]; exact foldl_append_if scannable l acc

theorem scannable_iff (psr : PackageScanResult) :
    scannable psr = true ↔
      (psr.PackageInfo.Ecosystem.Ecosystem ≠ "" ∧ psr.PackageInfo.Name ≠ ""
          ∧ psr.PackageInfo.Version ≠ "")
        ∨ psr.PackageInfo.Commit ≠ ""
        ∨ (psr.PackageInfo.Ecosystem.Ecosystem = "Maven" ∧ psr.PackageInfo.Name = "unknown") := by
  simp [scannable, Parsed.IsEmpty, EcosystemMaven, and_assoc, or_assoc]

theorem foldl_filterNonContainerStep (l acc : List PackageScanResult) :
    l.foldl filterNonContainerStep acc
      = acc ++ l.filter (fun psr => !(psr.PackageInfo.Name == "linux")) := by
  have h : filterNonContainerStep
      = fun acc x => if (fun psr : PackageScanResult => !(psr.PackageInfo.Name == "linux")) x
          then acc ++ [x] else acc := by
    funext acc x
    unfold filterNonContainerStep
    by_cases hx : (x.PackageInfo.Name == "linux") = true <;> simp [hx]
  rw [h]; exact foldl_append_if _ l acc

theorem foldl_filterIgnoredStep_fst (cm : ConfigManager) (l : List PackageScanResult)
    (st : List PackageScanResult × List String) :
    (l.foldl (filterIgnoredStep cm) st).1
      = st.1 ++ l.filter (fun psr =>
          !((cm.Get psr.PackageInfo.Location).ShouldIgnorePackage psr.PackageInfo).1) := by
  induction l generalizing st with
  | nil => simp
  | cons x xs ih =>
    rw [List.foldl_cons, ih, List.filter_cons]
    unfold filterIgnoredStep
    rcases hx : (cm.Get x.PackageInfo.Location).ShouldIgnorePackage x.PackageInfo with ⟨b, e⟩
    cases b <;> simp [hx]

/-! ## Package-level stages: settled statements -/

/-- C1: `filterUnscannablePackages` sets `PackageScanResults` to exactly the
input packages, in their original order, that satisfy the keep predicate
(ecosystem non-empty and name and version non-empty) or (commit non-empty) or
(ecosystem is Maven and name is "unknown"); every surviving package satisfies
it and every input package failing all three disjuncts is absent. -/
theorem filterUnscannablePackages_keeps_exactly (scanResults : ScanResults) :
    (filterUnscannablePackages scanResults).1.PackageScanResults
        = scanResults.PackageScanResults.filter (fun psr => decide
            ((psr.PackageInfo.Ecosystem.Ecosystem ≠ "" ∧ psr.PackageInfo.Name ≠ ""
                ∧ psr.PackageInfo.Version ≠ "")
              ∨ psr.PackageInfo.Commit ≠ ""
              ∨ (psr.PackageInfo.Ecosystem.Ecosystem = "Maven"
                  ∧ psr.PackageInfo.Name = "unknown")))
      ∧ ∀ psr : PackageScanResult,
          psr ∈ (filterUnscannablePackages scanResults).1.PackageScanResults ↔
            psr ∈ scanResults.PackageScanResults
              ∧ ((psr.PackageInfo.Ecosystem.Ecosystem ≠ "" ∧ psr.PackageInfo.Name ≠ ""
                    ∧ psr.PackageInfo.Version ≠ "")
                  ∨ psr.PackageInfo.Commit ≠ ""
                  ∨ (psr.PackageInfo.Ecosystem.Ecosystem = "Maven"
                      ∧ psr.PackageInfo.Name = "unknown")) := by
  have hfilter : (filterUnscannablePackages scanResults).1.PackageScanResults
      = scanResults.PackageScanResults.filter scannable := by
    simp [filterUnscannablePackages, foldl_filterUnscannableStep]
  have hpred : scannable = fun psr => decide
      ((psr.PackageInfo.Ecosystem.Ecosystem ≠ "" ∧ psr.PackageInfo.Name ≠ ""
          ∧ psr.PackageInfo.Version ≠ "")
        ∨ psr.PackageInfo.Commit ≠ ""
        ∨ (psr.PackageInfo.Ecosystem.Ecosystem = "Maven"
            ∧ psr.PackageInfo.Name = "unknown")) := by
    funext psr
    rw [Bool.eq_iff_iff, scannable_iff, decide_eq_true_iff]
  refine ⟨by rw [hfilter, hpred], fun psr => ?_⟩
  rw [hfilter, List.mem_filter, scannable_iff]

/-- C2: `filterIgnoredPackages` outputs exactly the input packages, in their
original relative order, for which `ShouldIgnorePackage` of the Config returned
by `ConfigManager.Get` at the package location does not match; a package for
which it matches is not in the output. -/
theorem filterIgnoredPackages_keeps_exactly (scanResults : ScanResults) :
    (filterIgnoredPackages scanResults).1.PackageScanResults
        = scanResults.PackageScanResults.filter (fun psr =>
            !((scanResults.ConfigManager.Get psr.PackageInfo.Location).ShouldIgnorePackage
                psr.PackageInfo).1)
      ∧ ∀ psr : PackageScanResult,
          ((scanResults.ConfigManager.Get psr.PackageInfo.Location).ShouldIgnorePackage
              psr.PackageInfo).1 = true →
            psr ∉ (filterIgnoredPackages scanResults).1.PackageScanResults := by
  have hfilter : (filterIgnoredPackages scanResults).1.PackageScanResults
      = scanResults.PackageScanResults.filter (fun psr =>
          !((scanResults.ConfigManager.Get psr.PackageInfo.Location).ShouldIgnorePackage
              psr.PackageInfo).1) := by
    simp [filterIgnoredPackages, foldl_filterIgnoredStep_fst]
  refine ⟨hfilter, fun psr hmatch hmem => ?_⟩
  rw [hfilter, List.mem_filter] at hmem
  simp [hmatch] at hmem

/-- C6: `filterNonContainerRelevantPackages` outputs exactly the input packages
whose name is not "linux", in their original order, whatever their ecosystem
or version. -/
theorem filterNonContainerRelevantPackages_keeps_exactly (scanResults : ScanResults) :
    (filterNonContainerRelevantPackages scanResults).1.PackageScanResults
      = scanResults.PackageScanResults.filter (fun psr =>
          decide (psr.PackageInfo.Name ≠ "linux")) := by
  have hpred : (fun psr : PackageScanResult => decide (psr.PackageInfo.Name ≠ "linux"))
      = fun psr => !(psr.PackageInfo.Name == "linux") := by
    funext psr
    by_cases h : psr.PackageInfo.Name = "linux" <;> simp [h]
  rw [hpred]
  simp [filterNonContainerRelevantPackages, foldl_filterNonContainerStep]

/-- C10: on the list [ (no ecosystem, name or version), npm left-pad 1.0.0,
(commit abc123 with empty ecosystem, name and version) ] the stage
`filterUnscannablePackages` keeps exactly items 2 and 3, in that order. -/
theorem filterUnscannablePackages_scenario :
    (filterUnscannablePackages ⟨scenarioPackages, ⟨fun _ => ignoreNothing⟩⟩).1.PackageScanResults
      = [examplePackage "npm" "left-pad" "1.0.0" "", examplePackage "" "" "" "abc123"] := by
  decide

/-! ## The vulnerability-level stage as filters -/

theorem firstIgnoreLine_isSome (c : Config) (aliases : List String) :
    (firstIgnoreLine c aliases).isSome = aliases.any (fun id => (c.ShouldIgnore id).1) := by
  induction aliases with
  | nil => rfl
  | cons id rest ih =>
    unfold firstIgnoreLine
    rcases h : c.ShouldIgnore id with ⟨b, e⟩
    cases b <;> simp [h, ih]

theorem firstIgnoreLine_eq_none (c : Config) (g : GroupInfo) :
    firstIgnoreLine c g.Aliases = none ↔ groupIgnored c g = false := by
  have h := firstIgnoreLine_isSome c g.Aliases
  unfold groupIgnored
  rw [← h]
  cases firstIgnoreLine c g.Aliases <;> simp

theorem filterGroupStep_kept (c : Config) (st : GroupLoopState) (g : GroupInfo)
    (h : groupIgnored c g = false) :
    filterGroupStep c st g = { st with newGroups := st.newGroups ++ [g] } := by
  unfold filterGroupStep
  rw [(firstIgnoreLine_eq_none c g).2 h]

theorem filterGroupStep_ignored (c : Config) (st : GroupLoopState) (g : GroupInfo)
    (h : groupIgnored c g = true) :
    (filterGroupStep c st g).newGroups = st.newGroups
      ∧ (filterGroupStep c st g).ignoredVulns = st.ignoredVulns ++ g.Aliases := by
  unfold filterGroupStep
  cases hf : firstIgnoreLine c g.Aliases with
  | none => rw [(firstIgnoreLine_eq_none c g).1 hf] at h; exact absurd h (by decide)
  | some e => exact ⟨rfl, rfl⟩

theorem foldl_filterGroupStep (c : Config) (groups : List GroupInfo) (st : GroupLoopState) :
    (groups.foldl (filterGroupStep c) st).newGroups
        = st.newGroups ++ groups.filter (fun g => !groupIgnored c g)
      ∧ (groups.foldl (filterGroupStep c) st).ignoredVulns
        = st.ignoredVulns ++ suppressedIds c groups := by
  induction groups generalizing st with
  | nil => simp [suppressedIds]
  | cons g gs ih =>
    rw [List.foldl_cons]
    obtain ⟨ih1, ih2⟩ := ih (filterGroupStep c st g)
    rw [ih1, ih2]
    cases h : groupIgnored c g with
    | false =>
      rw [filterGroupStep_kept c st g h]
      simp [suppressedIds, List.filter_cons, h]
    | true =>
      obtain ⟨h1, h2⟩ := filterGroupStep_ignored c st g h
      rw [h1, h2]
      simp [suppressedIds, List.filter_cons, h]

theorem foldl_filterVulnStep (ignored : List String) (vulns acc : List Vulnerability) :
    vulns.foldl (filterVulnStep ignored) acc
      = acc ++ vulns.filter (fun v => decide (v.ID ∉ ignored)) := by
  have h : filterVulnStep ignored
      = fun acc x => if (fun v : Vulnerability => decide (v.ID ∉ ignored)) x
          then acc ++ [x] else acc := by
    funext acc x
    unfold filterVulnStep
    by_cases hx : x.ID ∈ ignored <;> simp [hx]
  rw [h]; exact foldl_append_if _ vulns acc

/-- The groups that survive `filterPackageVulns`: those with no ignored alias. -/
theorem filterPackageVulns_groups (p : PackageVulns) (c : Config) :
    (filterPackageVulns p c).1.Groups = p.Groups.filter (fun g => !groupIgnored c g) := by
  simp [filterPackageVulns, (foldl_filterGroupStep c p.Groups ⟨[], [], []⟩).1]

/-- The vulnerabilities that survive `filterPackageVulns`: none when no group
survives, otherwise those whose id is outside the suppression set. -/
theorem filterPackageVulns_vulnerabilities (p : PackageVulns) (c : Config) :
    (filterPackageVulns p c).1.Vulnerabilities
      = if p.Groups.filter (fun g => !groupIgnored c g) = [] then []
        else p.Vulnerabilities.filter (fun v => decide (v.ID ∉ suppressedIds c p.Groups)) := by
  obtain ⟨h1, h2⟩ := foldl_filterGroupStep c p.Groups ⟨[], [], []⟩
  simp only [filterPackageVulns, h1, h2, List.nil_append, foldl_filterVulnStep]
  by_cases hg : p.Groups.filter (fun g => !groupIgnored c g) = []
  · simp [hg]
  · have hpos : 0 < (p.Groups.filter (fun g => !groupIgnored c g)).length :=
      List.length_pos.2 hg
    simp [hg, hpos]

theorem mem_suppressedIds (c : Config) (groups : List GroupInfo) (id : String) :
    id ∈ suppressedIds c groups ↔ ∃ g ∈ groups, groupIgnored c g = true ∧ id ∈ g.Aliases := by
  simp [suppressedIds, List.mem_flatMap, List.mem_filter, and_assoc]

/-! ## The report loop as filters and sums -/

theorem foldl_filterResultsPackageStep (c : Config) (allPackages : Bool)
    (packages : List PackageVulns) (st : PackageLoopState) :
    (packages.foldl (filterResultsPackageStep c allPackages) st).removedCount
        = st.removedCount + (packages.map (removedFrom c)).sum
      ∧ (packages.foldl (filterResultsPackageStep c allPackages) st).newPackages
        = st.newPackages ++ (packages.filter (keepsPackage allPackages c)).map
            (fun p => (filterPackageVulns p c).1) := by
  induction packages generalizing st with
  | nil => simp
  | cons p ps ih =>
    rw [List.foldl_cons]
    obtain ⟨ih1, ih2⟩ := ih (filterResultsPackageStep c allPackages st p)
    rw [ih1, ih2]
    have hcount : (filterResultsPackageStep c allPackages st p).removedCount
        = st.removedCount + removedFrom c p := by
      unfold filterResultsPackageStep removedFrom
      dsimp only
      split <;> rfl
    have hpkgs : (filterResultsPackageStep c allPackages st p).newPackages
        = if keepsPackage allPackages c p then st.newPackages ++ [(filterPackageVulns p c).1]
          else st.newPackages := by
      unfold filterResultsPackageStep keepsPackage
      dsimp only
      split <;> rfl
    rw [hcount, hpkgs]
    constructor
    · simp [List.map_cons, List.sum_cons, add_assoc]
    · by_cases hk : keepsPackage allPackages c p = true <;> simp [List.filter_cons, hk]

theorem filterResultsSourceStep_removedCount (cm : ConfigManager) (allPackages : Bool)
    (st : SourceLoopState) (src : PackageSource) :
    (filterResultsSourceStep cm allPackages st src).removedCount
      = st.removedCount + (src.Packages.map (removedFrom (cm.Get src.Source.Path))).sum := by
  unfold filterResultsSourceStep
  dsimp only
  split <;>
    simp [(foldl_filterResultsPackageStep (cm.Get src.Source.Path) allPackages src.Packages
      ⟨st.removedCount, [], st.log⟩).1]

theorem filterResultsSourceStep_newResults (cm : ConfigManager) (allPackages : Bool)
    (st : SourceLoopState) (src : PackageSource) :
    (filterResultsSourceStep cm allPackages st src).newResults
      = if reportedPackages cm allPackages src = [] then st.newResults
        else st.newResults ++ [{ src with Packages := reportedPackages cm allPackages src }] := by
  have hinner := (foldl_filterResultsPackageStep (cm.Get src.Source.Path) allPackages
    src.Packages ⟨st.removedCount, [], st.log⟩).2
  rw [List.nil_append] at hinner
  have hrep : (List.filter (keepsPackage allPackages (cm.Get src.Source.Path)) src.Packages).map
      (fun p => (filterPackageVulns p (cm.Get src.Source.Path)).1)
      = reportedPackages cm allPackages src := rfl
  unfold filterResultsSourceStep
  dsimp only
  rw [hinner, hrep]
  by_cases he : reportedPackages cm allPackages src = []
  · simp [he]
  · have hpos : 0 < (reportedPackages cm allPackages src).length := List.length_pos.2 he
    simp [hpos, he]

theorem foldl_filterResultsSourceStep (cm : ConfigManager) (allPackages : Bool)
    (sources : List PackageSource) (st : SourceLoopState) :
    (sources.foldl (filterResultsSourceStep cm allPackages) st).removedCount
        = st.removedCount
          + (sources.map (fun src =>
              (src.Packages.map (removedFrom (cm.Get src.Source.Path))).sum)).sum
      ∧ (sources.foldl (filterResultsSourceStep cm allPackages) st).newResults
        = st.newResults
          ++ (sources.map (fun src =>
                ({ src with Packages := reportedPackages cm allPackages src } : PackageSource))).filter
              (fun src => decide (src.Packages ≠ [])) := by
  induction sources generalizing st with
  | nil => simp
  | cons src rest ih =>
    rw [List.foldl_cons]
    obtain ⟨ih1, ih2⟩ := ih (filterResultsSourceStep cm allPackages st src)
    rw [ih1, ih2, filterResultsSourceStep_removedCount, filterResultsSourceStep_newResults]
    constructor
    · simp [List.map_cons, List.sum_cons, add_assoc]
    · by_cases he : reportedPackages cm allPackages src = [] <;>
        simp [List.filter_cons, he]

/-- The count returned by `filterResults`, as a sum over sources and packages. -/
theorem filterResults_removedCount (r : VulnerabilityResults) (cm : ConfigManager)
    (allPackages : Bool) :
    (filterResults r cm allPackages).removedCount
      = (r.Results.map (fun src =>
          (src.Packages.map (removedFrom (cm.Get src.Source.Path))).sum)).sum := by
  simp [filterResults, (foldl_filterResultsSourceStep cm allPackages r.Results ⟨0, [], []⟩).1]

/-- The report left by `filterResults`: each source with its reported packages,
sources without reported packages dropped. -/
theorem filterResults_results (r : VulnerabilityResults) (cm : ConfigManager)
    (allPackages : Bool) :
    (filterResults r cm allPackages).results.Results
      = (r.Results.map (fun src =>
            ({ src with Packages := reportedPackages cm allPackages src } : PackageSource))).filter
          (fun src => decide (src.Packages ≠ [])) := by
  simp [filterResults, (foldl_filterResultsSourceStep cm allPackages r.Results ⟨0, [], []⟩).2]

/-! ## Vulnerability-level stage: settled statements -/

theorem groupIgnored_iff (c : Config) (g : GroupInfo) :
    groupIgnored c g = true ↔ ∃ id ∈ g.Aliases, (c.ShouldIgnore id).1 = true := by
  simp [groupIgnored, List.any_eq_true]

theorem filterPackageVulns_groups_eq_nil_iff (p : PackageVulns) (c : Config) :
    (filterPackageVulns p c).1.Groups = []
      ↔ ∀ g ∈ p.Groups, ∃ id ∈ g.Aliases, (c.ShouldIgnore id).1 = true := by
  rw [filterPackageVulns_groups, List.filter_eq_nil_iff]
  constructor
  · intro h g hg
    have := h g hg
    rw [← groupIgnored_iff]
    simpa using this
  · intro h g hg
    have := (groupIgnored_iff c g).2 (h g hg)
    simp [this]

theorem filterPackageVulns_vulnerabilities_of_no_group (p : PackageVulns) (c : Config)
    (h : (filterPackageVulns p c).1.Groups = []) :
    (filterPackageVulns p c).1.Vulnerabilities = [] := by
  rw [filterPackageVulns_groups] at h
  rw [filterPackageVulns_vulnerabilities, if_pos h]

/-- C3: if any alias of a group of the package matches `ShouldIgnore`, then in
the result of `filterPackageVulns` that group is absent from `Groups` and no
vulnerability whose id is an alias of that group, matching or not, is present
in `Vulnerabilities`. -/
theorem filterPackageVulns_suppresses_whole_group (pkgVulns : PackageVulns)
    (configToUse : Config) (group : GroupInfo) (hgroup : group ∈ pkgVulns.Groups)
    (hmatch : ∃ id ∈ group.Aliases, (configToUse.ShouldIgnore id).1 = true) :
    group ∉ (filterPackageVulns pkgVulns configToUse).1.Groups
      ∧ ∀ v ∈ (filterPackageVulns pkgVulns configToUse).1.Vulnerabilities,
          v.ID ∉ group.Aliases := by
  have hign : groupIgnored configToUse group = true := (groupIgnored_iff _ _).2 hmatch
  constructor
  · rw [filterPackageVulns_groups, List.mem_filter]
    simp [hign]
  · intro v hv hmem
    rw [filterPackageVulns_vulnerabilities] at hv
    split at hv
    · simp at hv
    · rw [List.mem_filter] at hv
      have hnot : v.ID ∉ suppressedIds configToUse pkgVulns.Groups := by simpa using hv.2
      exact hnot ((mem_suppressedIds _ _ _).2 ⟨group, hgroup, hign, hmem⟩)

/-- Witness for C3: ignoring GHSA-1 removes the group {CVE-1, GHSA-1} and both
of its records from a package that keeps a second group. -/
theorem filterPackageVulns_suppresses_whole_group_witness :
    cveGhsaGroup ∈ twoGroupPackage.Groups
      ∧ (∃ id ∈ cveGhsaGroup.Aliases, (ignoreGhsa1.ShouldIgnore id).1 = true)
      ∧ cveGhsaGroup ∉ (filterPackageVulns twoGroupPackage ignoreGhsa1).1.Groups
      ∧ ∀ v ∈ (filterPackageVulns twoGroupPackage ignoreGhsa1).1.Vulnerabilities,
          v.ID ∉ cveGhsaGroup.Aliases :=
  ⟨by decide, ⟨"GHSA-1", by decide, by decide⟩,
    filterPackageVulns_suppresses_whole_group twoGroupPackage ignoreGhsa1 cveGhsaGroup
      (by decide) ⟨"GHSA-1", by decide, by decide⟩⟩

/-- C8: if no group survives `filterPackageVulns` (equivalently: every group of
the package has an alias matching `ShouldIgnore`, which includes the package
with no groups at all), the returned `Vulnerabilities` list is empty, whatever
the ids of the package's vulnerability records. -/
theorem filterPackageVulns_no_group_no_vulnerabilities (pkgVulns : PackageVulns)
    (configToUse : Config)
    (hnone : (filterPackageVulns pkgVulns configToUse).1.Groups = []
      ∨ ∀ g ∈ pkgVulns.Groups, ∃ id ∈ g.Aliases, (configToUse.ShouldIgnore id).1 = true) :
    (filterPackageVulns pkgVulns configToUse).1.Groups = []
      ∧ (∀ g ∈ pkgVulns.Groups, ∃ id ∈ g.Aliases, (configToUse.ShouldIgnore id).1 = true)
      ∧ (filterPackageVulns pkgVulns configToUse).1.Vulnerabilities = [] := by
  have hnil : (filterPackageVulns pkgVulns configToUse).1.Groups = [] := by
    rcases hnone with h | h
    · exact h
    · exact (filterPackageVulns_groups_eq_nil_iff _ _).2 h
  exact ⟨hnil, (filterPackageVulns_groups_eq_nil_iff _ _).1 hnil,
    filterPackageVulns_vulnerabilities_of_no_group _ _ hnil⟩

/-- Witness for C8: the record OSV-7 is an alias of no group, so its id is
outside the suppression set, and it is still removed once the only group of
the package is ignored. -/
theorem filterPackageVulns_no_group_no_vulnerabilities_witness :
    exampleVuln "OSV-7" ∈ strayRecordPackage.Vulnerabilities
      ∧ "OSV-7" ∉ (strayRecordPackage.Groups.foldl (filterGroupStep ignoreGhsa1)
            ⟨[], [], []⟩).ignoredVulns
      ∧ (filterPackageVulns strayRecordPackage ignoreGhsa1).1.Groups = []
      ∧ (∀ g ∈ strayRecordPackage.Groups,
          ∃ id ∈ g.Aliases, (ignoreGhsa1.ShouldIgnore id).1 = true)
      ∧ (filterPackageVulns strayRecordPackage ignoreGhsa1).1.Vulnerabilities = [] :=
  ⟨by decide, by decide,
    filterPackageVulns_no_group_no_vulnerabilities strayRecordPackage ignoreGhsa1
      (Or.inl (by decide))⟩

/-! ## Report stage: settled statements -/

/-- C4: the integer returned by `filterResults` equals the sum, over every
package of every package source of the input (reported or dropped), of the
number of vulnerabilities the package had minus the number of vulnerabilities
in `filterPackageVulns` of that package under the Config for its source path. -/
theorem filterResults_removedCount_exact (results : VulnerabilityResults)
    (configManager : ConfigManager) (allPackages : Bool) :
    (filterResults results configManager allPackages).removedCount
      = (results.Results.map (fun pkgSrc =>
          (pkgSrc.Packages.map (fun pkgVulns =>
            (pkgVulns.Vulnerabilities.length : Int)
              - (filterPackageVulns pkgVulns
                  (configManager.Get pkgSrc.Source.Path)).1.Vulnerabilities.length)).sum)).sum :=
  filterResults_removedCount results configManager allPackages

theorem keepsPackage_iff (allPackages : Bool) (c : Config) (p : PackageVulns) :
    keepsPackage allPackages c p = true
      ↔ allPackages = true ∨ (filterPackageVulns p c).1.Vulnerabilities ≠ []
          ∨ p.LicenseViolations ≠ [] := by
  simp [keepsPackage, List.length_pos, or_assoc]

theorem keepsPackage_congr (allPackages : Bool) (c : Config) (p q : PackageVulns)
    (h : (filterPackageVulns q c).1 = (filterPackageVulns p c).1) :
    keepsPackage allPackages c q = keepsPackage allPackages c p := by
  have hl : q.LicenseViolations = p.LicenseViolations := by
    have := congrArg PackageVulns.LicenseViolations h
    exact this
  unfold keepsPackage
  rw [h, hl]

theorem mem_reportedPackages (cm : ConfigManager) (allPackages : Bool) (src : PackageSource)
    (p : PackageVulns) (hp : p ∈ src.Packages) :
    (filterPackageVulns p (cm.Get src.Source.Path)).1 ∈ reportedPackages cm allPackages src
      ↔ keepsPackage allPackages (cm.Get src.Source.Path) p = true := by
  unfold reportedPackages
  rw [List.mem_map]
  constructor
  · rintro ⟨q, hq, heq⟩
    rw [List.mem_filter] at hq
    rw [← keepsPackage_congr allPackages _ p q heq]
    exact hq.2
  · intro hk
    exact ⟨p, List.mem_filter.2 ⟨hp, hk⟩, rfl⟩

/-- C5: the report left by `filterResults` holds, for each input source and in
order, the filtered copies of exactly those packages for which `allPackages`
is true, or the filtered vulnerability list is non-empty, or there is at least
one license violation (a source left with no package is not reported); hence a
package of an input source appears under its source in the output if and only
if that condition holds, and with `allPackages` false it is dropped exactly
when it has zero surviving vulnerabilities and zero license violations. -/
theorem filterResults_reports_package_iff (results : VulnerabilityResults)
    (configManager : ConfigManager) (allPackages : Bool) :
    (filterResults results configManager allPackages).results.Results
        = (results.Results.map (fun pkgSrc =>
            ({ pkgSrc with
                Packages :=
                  (pkgSrc.Packages.filter (fun pkgVulns =>
                      allPackages
                        || decide ((filterPackageVulns pkgVulns
                            (configManager.Get pkgSrc.Source.Path)).1.Vulnerabilities ≠ [])
                        || decide (pkgVulns.LicenseViolations ≠ []))).map
                    (fun pkgVulns =>
                      (filterPackageVulns pkgVulns (configManager.Get pkgSrc.Source.Path)).1) }
              : PackageSource))).filter
            (fun pkgSrc => decide (pkgSrc.Packages ≠ []))
      ∧ ∀ pkgSrc ∈ results.Results, ∀ pkgVulns ∈ pkgSrc.Packages,
          ((∃ out ∈ (filterResults results configManager allPackages).results.Results,
              out.Source = pkgSrc.Source
                ∧ (filterPackageVulns pkgVulns (configManager.Get pkgSrc.Source.Path)).1
                    ∈ out.Packages)
            ↔ allPackages = true
                ∨ (filterPackageVulns pkgVulns
                    (configManager.Get pkgSrc.Source.Path)).1.Vulnerabilities ≠ []
                ∨ pkgVulns.LicenseViolations ≠ []) := by
  constructor
  · rw [filterResults_results]
    have hk : ∀ (c : Config), (fun pkgVulns : PackageVulns =>
        allPackages || decide ((filterPackageVulns pkgVulns c).1.Vulnerabilities ≠ [])
          || decide (pkgVulns.LicenseViolations ≠ [])) = keepsPackage allPackages c := by
      intro c
      funext q
      rw [Bool.eq_iff_iff, keepsPackage_iff]
      simp [or_assoc]
    simp only [hk]
    rfl
  · intro src hsrc p hp
    rw [← keepsPackage_iff, filterResults_results]
    constructor
    · rintro ⟨out, hout, hsource, hmem⟩
      rw [List.mem_filter, List.mem_map] at hout
      obtain ⟨⟨src2, hsrc2, rfl⟩, _⟩ := hout
      have hpath : src2.Source = src.Source := hsource
      have hmem2 : (filterPackageVulns p (configManager.Get src.Source.Path)).1
          ∈ reportedPackages configManager allPackages src2 := hmem
      unfold reportedPackages at hmem2
      rw [hpath, List.mem_map] at hmem2
      obtain ⟨q, hq, heq⟩ := hmem2
      rw [List.mem_filter] at hq
      rw [← keepsPackage_congr allPackages _ p q heq]
      exact hq.2
    · intro hk
      have hin := (mem_reportedPackages configManager allPackages src p hp).2 hk
      refine ⟨{ src with Packages := reportedPackages configManager allPackages src }, ?_, rfl, hin⟩
      rw [List.mem_filter, List.mem_map]
      refine ⟨⟨src, hsrc, rfl⟩, ?_⟩
      simp only [decide_eq_true_iff]
      exact List.ne_nil_of_mem hin

theorem filterPackageVulns_sublists (p : PackageVulns) (c : Config) :
    (filterPackageVulns p c).1.Groups.Sublist p.Groups
      ∧ (filterPackageVulns p c).1.Vulnerabilities.Sublist p.Vulnerabilities := by
  constructor
  · rw [filterPackageVulns_groups]
    exact List.filter_sublist _
  · rw [filterPackageVulns_vulnerabilities]
    split
    · exact List.nil_sublist _
    · exact List.filter_sublist _

/-- C7: `filterPackageVulns` and `filterResults` preserve order and add nothing.
The `Groups` and `Vulnerabilities` returned by `filterPackageVulns` are
subsequences of the input's.  The sources reported by `filterResults` are, one
for one and in order, the sources of a subsequence of the input sources; each
reported source has the `Source` of its input source, and its packages are,
one for one and in order, the filtered copies of a subsequence of that input
source's packages, each with `Groups` and `Vulnerabilities` that are
subsequences of the input package's. -/
theorem filterResults_order_preserving (results : VulnerabilityResults)
    (configManager : ConfigManager) (allPackages : Bool) :
    (∀ (pkgVulns : PackageVulns) (configToUse : Config),
        (filterPackageVulns pkgVulns configToUse).1.Groups.Sublist pkgVulns.Groups
          ∧ (filterPackageVulns pkgVulns configToUse).1.Vulnerabilities.Sublist
              pkgVulns.Vulnerabilities)
      ∧ ∃ keptSources : List PackageSource,
          keptSources.Sublist results.Results
            ∧ List.Forall₂
                (fun (out pkgSrc : PackageSource) =>
                  out.Source = pkgSrc.Source
                    ∧ ∃ keptPackages : List PackageVulns,
                        keptPackages.Sublist pkgSrc.Packages
                          ∧ List.Forall₂
                              (fun (outPkg pkgVulns : PackageVulns) =>
                                outPkg = (filterPackageVulns pkgVulns
                                    (configManager.Get pkgSrc.Source.Path)).1
                                  ∧ outPkg.Package = pkgVulns.Package
                                  ∧ outPkg.Groups.Sublist pkgVulns.Groups
                                  ∧ outPkg.Vulnerabilities.Sublist pkgVulns.Vulnerabilities)
                              out.Packages keptPackages)
                (filterResults results configManager allPackages).results.Results keptSources := by
  refine ⟨filterPackageVulns_sublists, ?_⟩
  refine ⟨results.Results.filter
      ((fun src : PackageSource => decide (src.Packages ≠ []))
        ∘ fun src => { src with Packages := reportedPackages configManager allPackages src }),
    List.filter_sublist _, ?_⟩
  rw [filterResults_results, List.filter_map, List.forall₂_map_left_iff, List.forall₂_same]
  intro src _
  refine ⟨rfl, src.Packages.filter (keepsPackage allPackages (configManager.Get src.Source.Path)),
    List.filter_sublist _, ?_⟩
  change List.Forall₂ _ (reportedPackages configManager allPackages src) _
  unfold reportedPackages
  rw [List.forall₂_map_left_iff, List.forall₂_same]
  intro p _
  exact ⟨rfl, rfl, (filterPackageVulns_sublists p _).1, (filterPackageVulns_sublists p _).2⟩

theorem removedFrom_of_only_group_ignored (c : Config) (pkg : PackageVulns) (group : GroupInfo)
    (hgroups : pkg.Groups = [group]) (hign : groupIgnored c group = true) :
    (filterPackageVulns pkg c).1.Vulnerabilities = [] := by
  apply filterPackageVulns_vulnerabilities_of_no_group
  rw [filterPackageVulns_groups, hgroups]
  simp [hign]

theorem sum_removedFrom_insert (c : Config) (before after : List PackageVulns)
    (pkg : PackageVulns) :
    ((before ++ [pkg] ++ after).map (removedFrom c)).sum
      = ((before ++ after).map (removedFrom c)).sum + removedFrom c pkg := by
  simp only [List.map_append, List.sum_append, List.map_cons, List.map_nil, List.sum_cons,
    List.sum_nil]
  ring

/-- C9: for a package whose vulnerability group has the aliases CVE-1 and
GHSA-1, with one vulnerability record per alias, and a Config whose
`ShouldIgnore` matches GHSA-1, the vulnerability list returned by
`filterPackageVulns` contains neither CVE-1 nor GHSA-1, and the package adds
exactly 2 to the removed count returned by `filterResults`: wherever the
package stands in the results, the count is 2 more than for the same results
without it. -/
theorem filterResults_cve_ghsa_scenario (pkg : PackageVulns) (group : GroupInfo)
    (v1 v2 : Vulnerability) (configManager : ConfigManager) (allPackages : Bool)
    (source : SourceInfo) (before after : List PackageVulns)
    (earlier later : List PackageSource) (summary : List String)
    (hgroups : pkg.Groups = [group]) (haliases : group.Aliases = ["CVE-1", "GHSA-1"])
    (hvulns : pkg.Vulnerabilities = [v1, v2])
    (hignore : ((configManager.Get source.Path).ShouldIgnore "GHSA-1").1 = true) :
    (∀ v ∈ (filterPackageVulns pkg (configManager.Get source.Path)).1.Vulnerabilities,
        v.ID ≠ "CVE-1" ∧ v.ID ≠ "GHSA-1")
      ∧ (filterResults ⟨earlier ++ [⟨source, before ++ [pkg] ++ after⟩] ++ later, summary⟩
            configManager allPackages).removedCount
        = (filterResults ⟨earlier ++ [⟨source, before ++ after⟩] ++ later, summary⟩
            configManager allPackages).removedCount + 2 := by
  have hign : groupIgnored (configManager.Get source.Path) group = true :=
    (groupIgnored_iff _ _).2 ⟨"GHSA-1", by simp [haliases], hignore⟩
  have hempty := removedFrom_of_only_group_ignored _ pkg group hgroups hign
  have htwo : removedFrom (configManager.Get source.Path) pkg = 2 := by
    simp [removedFrom, hempty, hvulns]
  constructor
  · intro v hv
    rw [hempty] at hv
    simp at hv
  · rw [filterResults_removedCount, filterResults_removedCount]
    simp only [List.map_append, List.sum_append, List.map_cons, List.map_nil, List.sum_cons,
      List.sum_nil]
    have hins := sum_removedFrom_insert (configManager.Get source.Path) before after pkg
    simp only [List.map_append, List.sum_append, List.map_cons, List.map_nil, List.sum_cons,
      List.sum_nil] at hins
    rw [htwo] at hins
    omega

/-- Witness for C9: the package {CVE-1, GHSA-1} placed after a clean package,
under a manager whose Config ignores GHSA-1 only. -/
theorem filterResults_cve_ghsa_scenario_witness :
    (ignoreGhsa1.ShouldIgnore "CVE-1").1 = false
      ∧ (ignoreGhsa1.ShouldIgnore "GHSA-1").1 = true
      ∧ (∀ v ∈ (filterPackageVulns cveGhsaPackage
            (ghsa1Manager.Get lockfileSource.Path)).1.Vulnerabilities,
          v.ID ≠ "CVE-1" ∧ v.ID ≠ "GHSA-1")
      ∧ (filterResults ⟨[] ++ [⟨lockfileSource, [cleanPackage] ++ [cveGhsaPackage] ++ []⟩] ++ [],
            []⟩ ghsa1Manager false).removedCount
        = (filterResults ⟨[] ++ [⟨lockfileSource, [cleanPackage] ++ []⟩] ++ [], []⟩
            ghsa1Manager false).removedCount + 2 :=
  ⟨by decide, by decide,
    filterResults_cve_ghsa_scenario cveGhsaPackage cveGhsaGroup (exampleVuln "CVE-1")
      (exampleVuln "GHSA-1") ghsa1Manager false lockfileSource [cleanPackage] [] [] [] []
      (by decide) (by decide) (by decide) (by decide)⟩

/-! ## Fixed points of the vulnerability-level stage -/

theorem suppressedIds_eq_nil (c : Config) (groups : List GroupInfo)
    (hnone : ∀ g ∈ groups, groupIgnored c g = false) : suppressedIds c groups = [] := by
  have hf : groups.filter (groupIgnored c) = [] := by
    rw [List.filter_eq_nil_iff]
    intro g hg
    simp [hnone g hg]
  simp [suppressedIds, hf]

/-- A package none of whose groups is ignored, and which has no record when it
has no group, is returned unchanged by `filterPackageVulns`. -/
theorem filterPackageVulns_eq_self (q : PackageVulns) (c : Config)
    (hnone : ∀ g ∈ q.Groups, groupIgnored c g = false)
    (hv : q.Groups = [] → q.Vulnerabilities = []) :
    (filterPackageVulns q c).1 = q := by
  have hkeep : q.Groups.filter (fun g => !groupIgnored c g) = q.Groups := by
    rw [List.filter_eq_self]
    intro g hg
    simp [hnone g hg]
  have hG : (filterPackageVulns q c).1.Groups = q.Groups := by
    rw [filterPackageVulns_groups, hkeep]
  have hV : (filterPackageVulns q c).1.Vulnerabilities = q.Vulnerabilities := by
    rw [filterPackageVulns_vulnerabilities, hkeep, suppressedIds_eq_nil c q.Groups hnone]
    by_cases hg : q.Groups = []
    · rw [if_pos hg, hv hg]
    · rw [if_neg hg]
      simp
  have hmk : (filterPackageVulns q c).1
      = { q with Groups := (filterPackageVulns q c).1.Groups,
                 Vulnerabilities := (filterPackageVulns q c).1.Vulnerabilities } := rfl
  rw [hmk, hG, hV]

theorem groupIgnored_of_mem_filtered (p : PackageVulns) (c : Config) (g : GroupInfo)
    (hg : g ∈ (filterPackageVulns p c).1.Groups) : g ∈ p.Groups ∧ groupIgnored c g = false := by
  rw [filterPackageVulns_groups, List.mem_filter] at hg
  exact ⟨hg.1, by simpa using hg.2⟩

/-- The vulnerability-level stage is idempotent on a package. -/
theorem filterPackageVulns_idem (p : PackageVulns) (c : Config) :
    (filterPackageVulns (filterPackageVulns p c).1 c).1 = (filterPackageVulns p c).1 :=
  filterPackageVulns_eq_self _ c
    (fun g hg => (groupIgnored_of_mem_filtered p c g hg).2)
    (fun h => filterPackageVulns_vulnerabilities_of_no_group p c h)

theorem removedFrom_eq_zero_of_fixed (c : Config) (q : PackageVulns)
    (h : (filterPackageVulns q c).1 = q) : removedFrom c q = 0 := by
  unfold removedFrom
  rw [h]
  simp

theorem reportedPackages_fixed (cm : ConfigManager) (allPackages : Bool) (src : PackageSource) :
    ∀ q ∈ reportedPackages cm allPackages src,
      (filterPackageVulns q (cm.Get src.Source.Path)).1 = q
        ∧ keepsPackage allPackages (cm.Get src.Source.Path) q = true := by
  intro q hq
  unfold reportedPackages at hq
  rw [List.mem_map] at hq
  obtain ⟨p, hp, rfl⟩ := hq
  rw [List.mem_filter] at hp
  have hidem := filterPackageVulns_idem p (cm.Get src.Source.Path)
  refine ⟨hidem, ?_⟩
  rw [keepsPackage_congr allPackages _ p _ hidem]
  exact hp.2

theorem reportedPackages_idem (cm : ConfigManager) (allPackages : Bool) (src : PackageSource) :
    reportedPackages cm allPackages
        { src with Packages := reportedPackages cm allPackages src }
      = reportedPackages cm allPackages src := by
  have hfix := reportedPackages_fixed cm allPackages src
  have hfilter : (reportedPackages cm allPackages src).filter
      (keepsPackage allPackages (cm.Get src.Source.Path))
      = reportedPackages cm allPackages src := by
    rw [List.filter_eq_self]
    exact fun q hq => (hfix q hq).2
  have hmap : (reportedPackages cm allPackages src).map
      (fun p => (filterPackageVulns p (cm.Get src.Source.Path)).1)
      = reportedPackages cm allPackages src := by
    conv_rhs => rw [← List.map_id (reportedPackages cm allPackages src)]
    apply List.map_congr_left
    intro q hq
    exact (hfix q hq).1
  show ((reportedPackages cm allPackages src).filter
      (keepsPackage allPackages (cm.Get src.Source.Path))).map
        (fun p => (filterPackageVulns p (cm.Get src.Source.Path)).1) = _
  rw [hfilter, hmap]

theorem mem_filterResults_results (r : VulnerabilityResults) (cm : ConfigManager)
    (allPackages : Bool) (s : PackageSource)
    (hs : s ∈ (filterResults r cm allPackages).results.Results) :
    s.Packages ≠ []
      ∧ ∃ src ∈ r.Results, s = { src with Packages := reportedPackages cm allPackages src } := by
  rw [filterResults_results, List.mem_filter, List.mem_map] at hs
  obtain ⟨⟨src, hsrc, rfl⟩, hne⟩ := hs
  exact ⟨by simpa using hne, src, hsrc, rfl⟩

/-- Results whose sources are all non-empty and already carry their reported
packages are left unchanged by `filterResults`. -/
theorem filterResults_results_eq_self (x : VulnerabilityResults) (cm : ConfigManager)
    (allPackages : Bool)
    (hfix : ∀ s ∈ x.Results,
      ({ s with Packages := reportedPackages cm allPackages s } : PackageSource) = s
        ∧ s.Packages ≠ []) :
    (filterResults x cm allPackages).results = x := by
  have hmap : x.Results.map (fun src =>
      ({ src with Packages := reportedPackages cm allPackages src } : PackageSource))
      = x.Results := by
    conv_rhs => rw [← List.map_id x.Results]
    apply List.map_congr_left
    intro s hs
    exact (hfix s hs).1
  have hR : (filterResults x cm allPackages).results.Results = x.Results := by
    rw [filterResults_results, hmap, List.filter_eq_self]
    intro s hs
    simpa using (hfix s hs).2
  have hmk : (filterResults x cm allPackages).results
      = { x with Results := (filterResults x cm allPackages).results.Results } := rfl
  rw [hmk, hR]

theorem filterResults_removedCount_eq_zero (x : VulnerabilityResults) (cm : ConfigManager)
    (allPackages : Bool)
    (hfix : ∀ s ∈ x.Results, ∀ q ∈ s.Packages,
      (filterPackageVulns q (cm.Get s.Source.Path)).1 = q) :
    (filterResults x cm allPackages).removedCount = 0 := by
  rw [filterResults_removedCount]
  apply List.sum_eq_zero
  intro n hn
  rw [List.mem_map] at hn
  obtain ⟨s, hs, rfl⟩ := hn
  apply List.sum_eq_zero
  intro m hm
  rw [List.mem_map] at hm
  obtain ⟨q, hq, rfl⟩ := hm
  exact removedFrom_eq_zero_of_fixed _ q (hfix s hs q hq)

/-- C11: `filterResults` is idempotent: applying it a second time, with the
same ConfigManager and flag, to the results left by a first application leaves
those results unchanged and returns a removed count of 0. -/
theorem filterResults_idempotent (results : VulnerabilityResults)
    (configManager : ConfigManager) (allPackages : Bool) :
    (filterResults (filterResults results configManager allPackages).results
        configManager allPackages).results
        = (filterResults results configManager allPackages).results
      ∧ (filterResults (filterResults results configManager allPackages).results
          configManager allPackages).removedCount = 0 := by
  constructor
  · apply filterResults_results_eq_self
    intro s hs
    obtain ⟨hne, src, _, rfl⟩ := mem_filterResults_results results configManager allPackages s hs
    refine ⟨?_, hne⟩
    have h := reportedPackages_idem configManager allPackages src
    show ({ Source := src.Source,
            Packages := reportedPackages configManager allPackages
              { src with Packages := reportedPackages configManager allPackages src } }
          : PackageSource) = _
    rw [h]
  · apply filterResults_removedCount_eq_zero
    intro s hs q hq
    obtain ⟨_, src, _, rfl⟩ := mem_filterResults_results results configManager allPackages s hs
    exact (reportedPackages_fixed configManager allPackages src q hq).1

/-! ## Conservation of the vulnerability count -/

theorem sum_map_filter_of_zero {α : Type} (l : List α) (keep : α → Bool) (w : α → Int)
    (h : ∀ x ∈ l, keep x = false → w x = 0) :
    ((l.filter keep).map w).sum = (l.map w).sum := by
  induction l with
  | nil => rfl
  | cons x xs ih =>
    have ih2 := ih (fun y hy => h y (List.mem_cons_of_mem x hy))
    cases hk : keep x with
    | true => simp [List.filter_cons, hk, ih2]
    | false =>
      have hx := h x (List.mem_cons_self x xs) hk
      simp [List.filter_cons, hk, ih2, hx]

theorem sum_map_sub (l : List PackageVulns) (f g : PackageVulns → Int) :
    (l.map (fun p => f p - g p)).sum = (l.map f).sum - (l.map g).sum := by
  induction l with
  | nil => rfl
  | cons x xs ih =>
    simp only [List.map_cons, List.sum_cons, ih]
    ring

theorem sum_reportedPackages (cm : ConfigManager) (allPackages : Bool) (src : PackageSource) :
    ((reportedPackages cm allPackages src).map
        (fun p => (p.Vulnerabilities.length : Int))).sum
      = (src.Packages.map (fun p =>
          ((filterPackageVulns p (cm.Get src.Source.Path)).1.Vulnerabilities.length : Int))).sum := by
  unfold reportedPackages
  rw [List.map_map]
  apply sum_map_filter_of_zero
  intro p _ hk
  have hlen : ¬ (filterPackageVulns p (cm.Get src.Source.Path)).1.Vulnerabilities.length > 0 := by
    intro hpos
    have : keepsPackage allPackages (cm.Get src.Source.Path) p = true := by
      simp [keepsPackage, hpos]
    rw [hk] at this
    exact absurd this (by decide)
  simp only [Function.comp]
  omega

theorem totalVulnerabilities_filterResults (r : VulnerabilityResults) (cm : ConfigManager)
    (allPackages : Bool) :
    totalVulnerabilities (filterResults r cm allPackages).results.Results
      = (r.Results.map (fun src =>
          (src.Packages.map (fun p =>
            ((filterPackageVulns p (cm.Get src.Source.Path)).1.Vulnerabilities.length : Int))).sum)).sum := by
  unfold totalVulnerabilities
  rw [filterResults_results]
  have hzero : ∀ s ∈ r.Results.map (fun src =>
      ({ src with Packages := reportedPackages cm allPackages src } : PackageSource)),
      (fun src : PackageSource => decide (src.Packages ≠ [])) s = false →
        (fun pkgSrc : PackageSource =>
          (pkgSrc.Packages.map (fun pkgVulns =>
            (pkgVulns.Vulnerabilities.length : Int))).sum) s = 0 := by
    intro s _ hs
    have : s.Packages = [] := by simpa using hs
    simp [this]
  rw [sum_map_filter_of_zero _ _ _ hzero, List.map_map]
  congr 1
  apply List.map_congr_left
  intro src _
  exact sum_reportedPackages cm allPackages src

/-- C17: conservation of counts in `filterResults`: for either value of
`allPackages`, the returned removed count equals the total number of
vulnerabilities over all packages of the input results minus the total number
over all packages of the output results, so no dropped package or source hides
a surviving vulnerability. -/
theorem filterResults_conserves_count (results : VulnerabilityResults)
    (configManager : ConfigManager) (allPackages : Bool) :
    (filterResults results configManager allPackages).removedCount
      = totalVulnerabilities results.Results
        - totalVulnerabilities (filterResults results configManager allPackages).results.Results := by
  rw [totalVulnerabilities_filterResults, filterResults_removedCount]
  unfold totalVulnerabilities
  induction results.Results with
  | nil => rfl
  | cons src rest ih =>
    simp only [List.map_cons, List.sum_cons, ih]
    have hsrc : (src.Packages.map (removedFrom (configManager.Get src.Source.Path))).sum
        = (src.Packages.map (fun p => (p.Vulnerabilities.length : Int))).sum
          - (src.Packages.map (fun p =>
              ((filterPackageVulns p
                (configManager.Get src.Source.Path)).1.Vulnerabilities.length : Int))).sum :=
      sum_map_sub src.Packages _ _
    rw [hsrc]
    ring

/-! ## Groups and vulnerabilities after filtering -/

theorem mem_filterPackageVulns_vulnerabilities (p : PackageVulns) (c : Config)
    (v : Vulnerability) :
    v ∈ (filterPackageVulns p c).1.Vulnerabilities
      ↔ v ∈ p.Vulnerabilities ∧ (filterPackageVulns p c).1.Groups ≠ []
          ∧ v.ID ∉ suppressedIds c p.Groups := by
  rw [filterPackageVulns_vulnerabilities, filterPackageVulns_groups]
  by_cases hg : p.Groups.filter (fun g => !groupIgnored c g) = []
  · simp [hg]
  · simp [hg, List.mem_filter]

/-- C18: `filterPackageVulns` preserves group/vulnerability consistency: when
every vulnerability id of the package is an alias of at least one of its
groups, every vulnerability of the output has an id that is an alias of at
least one group of the output. -/
theorem filterPackageVulns_keeps_consistency (pkgVulns : PackageVulns) (configToUse : Config)
    (hcons : ∀ v ∈ pkgVulns.Vulnerabilities, ∃ g ∈ pkgVulns.Groups, v.ID ∈ g.Aliases) :
    ∀ v ∈ (filterPackageVulns pkgVulns configToUse).1.Vulnerabilities,
      ∃ g ∈ (filterPackageVulns pkgVulns configToUse).1.Groups, v.ID ∈ g.Aliases := by
  intro v hv
  obtain ⟨hin, _, hnot⟩ := (mem_filterPackageVulns_vulnerabilities _ _ v).1 hv
  obtain ⟨g, hg, halias⟩ := hcons v hin
  refine ⟨g, ?_, halias⟩
  rw [filterPackageVulns_groups, List.mem_filter]
  refine ⟨hg, ?_⟩
  cases hign : groupIgnored configToUse g with
  | false => rfl
  | true => exact absurd ((mem_suppressedIds _ _ _).2 ⟨g, hg, hign, halias⟩) hnot

/-- Witness for C18: a consistent two-group package, one group ignored. -/
theorem filterPackageVulns_keeps_consistency_witness :
    (∀ v ∈ twoGroupPackage.Vulnerabilities, ∃ g ∈ twoGroupPackage.Groups, v.ID ∈ g.Aliases)
      ∧ (filterPackageVulns twoGroupPackage ignoreGhsa1).1.Vulnerabilities = [exampleVuln "OSV-7"]
      ∧ ∀ v ∈ (filterPackageVulns twoGroupPackage ignoreGhsa1).1.Vulnerabilities,
          ∃ g ∈ (filterPackageVulns twoGroupPackage ignoreGhsa1).1.Groups, v.ID ∈ g.Aliases :=
  ⟨by decide, by decide,
    filterPackageVulns_keeps_consistency twoGroupPackage ignoreGhsa1 (by decide)⟩

/-- C19: when no alias belongs to two distinct groups of the package,
`filterPackageVulns` keeps every vulnerability whose id is an alias of a
surviving group; and a vulnerability is removed only if no group survives or
its id is an alias of a group that has an alias matching `ShouldIgnore`.  The
precondition is needed: in a package where `CVE-1` is an alias both of an
ignored group and of a surviving one, the record `CVE-1` is removed although
its group {CVE-1, OSV-7} survives. -/
theorem filterPackageVulns_keeps_vulns_of_surviving_groups (pkgVulns : PackageVulns)
    (configToUse : Config)
    (hdisjoint : ∀ g ∈ pkgVulns.Groups, ∀ g2 ∈ pkgVulns.Groups, g ≠ g2 →
      ∀ id ∈ g.Aliases, id ∉ g2.Aliases) :
    (∀ v ∈ pkgVulns.Vulnerabilities,
        (∃ g ∈ (filterPackageVulns pkgVulns configToUse).1.Groups, v.ID ∈ g.Aliases) →
          v ∈ (filterPackageVulns pkgVulns configToUse).1.Vulnerabilities)
      ∧ (∀ v ∈ pkgVulns.Vulnerabilities,
          v ∉ (filterPackageVulns pkgVulns configToUse).1.Vulnerabilities →
            (filterPackageVulns pkgVulns configToUse).1.Groups = []
              ∨ ∃ g ∈ pkgVulns.Groups,
                  (∃ id ∈ g.Aliases, (configToUse.ShouldIgnore id).1 = true)
                    ∧ v.ID ∈ g.Aliases)
      ∧ (exampleVuln "CVE-1" ∈ overlapPackage.Vulnerabilities
          ∧ (∃ g ∈ (filterPackageVulns overlapPackage ignoreGhsa1).1.Groups,
              (exampleVuln "CVE-1").ID ∈ g.Aliases)
          ∧ exampleVuln "CVE-1"
              ∉ (filterPackageVulns overlapPackage ignoreGhsa1).1.Vulnerabilities) := by
  refine ⟨?_, ?_, by decide, by decide, by decide⟩
  · rintro v hv ⟨g, hg, halias⟩
    obtain ⟨hgin, hgkept⟩ := groupIgnored_of_mem_filtered pkgVulns configToUse g hg
    rw [mem_filterPackageVulns_vulnerabilities]
    refine ⟨hv, List.ne_nil_of_mem hg, ?_⟩
    intro hsup
    obtain ⟨g2, hg2, hign, halias2⟩ := (mem_suppressedIds _ _ _).1 hsup
    have hne : g ≠ g2 := by
      intro heq
      rw [heq, hign] at hgkept
      exact absurd hgkept (by decide)
    exact hdisjoint g hgin g2 hg2 hne v.ID halias halias2
  · intro v hv hgone
    by_cases hnil : (filterPackageVulns pkgVulns configToUse).1.Groups = []
    · exact Or.inl hnil
    · right
      have hsup : v.ID ∈ suppressedIds configToUse pkgVulns.Groups := by
        by_contra hnot
        exact hgone ((mem_filterPackageVulns_vulnerabilities _ _ v).2 ⟨hv, hnil, hnot⟩)
      obtain ⟨g, hg, hign, halias⟩ := (mem_suppressedIds _ _ _).1 hsup
      exact ⟨g, hg, (groupIgnored_iff _ _).1 hign, halias⟩

/-- Witness for C19: the groups {CVE-1, GHSA-1} and {OSV-7} share no alias. -/
theorem filterPackageVulns_keeps_vulns_of_surviving_groups_witness :
    (∀ g ∈ twoGroupPackage.Groups, ∀ g2 ∈ twoGroupPackage.Groups, g ≠ g2 →
        ∀ id ∈ g.Aliases, id ∉ g2.Aliases)
      ∧ exampleVuln "OSV-7" ∈ (filterPackageVulns twoGroupPackage ignoreGhsa1).1.Vulnerabilities :=
  ⟨by decide,
    (filterPackageVulns_keeps_vulns_of_surviving_groups twoGroupPackage ignoreGhsa1
      (by decide)).1 (exampleVuln "OSV-7") (by decide) (by decide)⟩

theorem groupIgnored_eq_false_of_no_match (c : Config) (g : GroupInfo)
    (h : ∀ id ∈ g.Aliases, (c.ShouldIgnore id).1 = false) : groupIgnored c g = false := by
  cases hign : groupIgnored c g with
  | false => rfl
  | true =>
    obtain ⟨id, hid, hmatch⟩ := (groupIgnored_iff c g).1 hign
    rw [h id hid] at hmatch
    exact absurd hmatch (by decide)

/-- C20: for a package with at least one group and a Config whose `ShouldIgnore`
matches none of the aliases of its groups, `filterPackageVulns` returns the
package with `Groups` and `Vulnerabilities` equal to the input's (indeed the
package itself), and the package contributes 0 to the removed count of
`filterResults`: wherever it stands in the results, the count is the same as
for the results without it. -/
theorem filterPackageVulns_unchanged_when_nothing_ignored (pkg : PackageVulns)
    (configManager : ConfigManager) (allPackages : Bool) (source : SourceInfo)
    (before after : List PackageVulns) (earlier later : List PackageSource)
    (summary : List String)
    (hgroups : pkg.Groups ≠ [])
    (hnone : ∀ g ∈ pkg.Groups, ∀ id ∈ g.Aliases,
      ((configManager.Get source.Path).ShouldIgnore id).1 = false) :
    (filterPackageVulns pkg (configManager.Get source.Path)).1.Groups = pkg.Groups
      ∧ (filterPackageVulns pkg (configManager.Get source.Path)).1.Vulnerabilities
          = pkg.Vulnerabilities
      ∧ (filterPackageVulns pkg (configManager.Get source.Path)).1 = pkg
      ∧ (pkg.Vulnerabilities.length : Int)
          - (filterPackageVulns pkg (configManager.Get source.Path)).1.Vulnerabilities.length = 0
      ∧ (filterResults ⟨earlier ++ [⟨source, before ++ [pkg] ++ after⟩] ++ later, summary⟩
            configManager allPackages).removedCount
        = (filterResults ⟨earlier ++ [⟨source, before ++ after⟩] ++ later, summary⟩
            configManager allPackages).removedCount := by
  have hself : (filterPackageVulns pkg (configManager.Get source.Path)).1 = pkg :=
    filterPackageVulns_eq_self pkg _
      (fun g hg => groupIgnored_eq_false_of_no_match _ g (hnone g hg))
      (fun h => absurd h hgroups)
  have hzero := removedFrom_eq_zero_of_fixed _ pkg hself
  refine ⟨by rw [hself], by rw [hself], hself, hzero, ?_⟩
  rw [filterResults_removedCount, filterResults_removedCount]
  simp only [List.map_append, List.sum_append, List.map_cons, List.map_nil, List.sum_cons,
    List.sum_nil]
  have hins := sum_removedFrom_insert (configManager.Get source.Path) before after pkg
  simp only [List.map_append, List.sum_append, List.map_cons, List.map_nil, List.sum_cons,
    List.sum_nil] at hins
  rw [hzero] at hins
  omega

/-- Witness for C20: the package {CVE-1, GHSA-1} under a Config that ignores
nothing keeps both of its records. -/
theorem filterPackageVulns_unchanged_when_nothing_ignored_witness :
    cveGhsaPackage.Groups ≠ []
      ∧ (filterPackageVulns cveGhsaPackage (nothingManager.Get lockfileSource.Path)).1.Groups
          = cveGhsaPackage.Groups
      ∧ (filterPackageVulns cveGhsaPackage
            (nothingManager.Get lockfileSource.Path)).1.Vulnerabilities
          = cveGhsaPackage.Vulnerabilities
      ∧ (filterPackageVulns cveGhsaPackage (nothingManager.Get lockfileSource.Path)).1
          = cveGhsaPackage
      ∧ (cveGhsaPackage.Vulnerabilities.length : Int)
          - (filterPackageVulns cveGhsaPackage
              (nothingManager.Get lockfileSource.Path)).1.Vulnerabilities.length = 0
      ∧ (filterResults ⟨[] ++ [⟨lockfileSource, [cleanPackage] ++ [cveGhsaPackage] ++ []⟩] ++ [],
            []⟩ nothingManager false).removedCount
        = (filterResults ⟨[] ++ [⟨lockfileSource, [cleanPackage] ++ []⟩] ++ [], []⟩
            nothingManager false).removedCount :=
  ⟨by decide,
    filterPackageVulns_unchanged_when_nothing_ignored cveGhsaPackage nothingManager false
      lockfileSource [cleanPackage] [] [] [] [] (by decide) (by decide)⟩

/-! ## Maven version comparator: conformance to the test rows -/

theorem not_endsWith_android_of_jre (v : String) (h : endsWith v "-jre" = true) :
    endsWith v "-android" = false := by
  unfold endsWith at *
  cases hA : List.isSuffixOf "-android".toList v.toList with
  | false => rfl
  | true =>
    rw [List.isSuffixOf_iff_suffix] at h hA
    obtain ⟨x, hx⟩ := h
    obtain ⟨y, hy⟩ := hA
    have := congrArg List.getLast? (hx.trans hy.symm)
    simp at this

theorem compareVersions_guava (native : String → String → Int) (dateLike : String → Bool)
    (vk : VersionKey) (a b : String) (hname : vk.Name = "com.google.guava:guava") :
    CompareVersions native dateLike vk a b
      = if endsWith a "-android" == endsWith b "-android" then native a b
        else if endsWith a "-android" == endsWith vk.Version "-android" then 1
        else -1 := by
  unfold CompareVersions
  rw [hname]
  rfl

theorem compareVersions_commonsIo (native : String → String → Int) (dateLike : String → Bool)
    (vk : VersionKey) (a b : String) (hname : vk.Name = "commons-io:commons-io") :
    CompareVersions native dateLike vk a b
      = if dateLike a == dateLike b then native a b
        else if dateLike a then -1
        else 1 := by
  unfold CompareVersions
  rw [hname]
  rfl

theorem compareVersions_not_overridden (native : String → String → Int)
    (dateLike : String → Bool) (vk : VersionKey) (a b : String)
    (hname : overrideTable.lookup vk.Name = none) :
    CompareVersions native dateLike vk a b = native a b := by
  unfold CompareVersions
  rw [hname]

/-- The rows of `TestCompareVersions` that an override decides hold for every
native ordering, and for every date test that tells the two versions of the
commons-io row apart. -/
theorem compareVersions_test_rows (native : String → String → Int) (dateLike : String → Bool)
    (hd1 : dateLike "1.2.3" = false) (hd2 : dateLike "20010101.000000" = true) :
    CompareVersions native dateLike (guavaKey "1.0.0") "2.3.4-android" "1.2.3-jre" = -1
      ∧ CompareVersions native dateLike (guavaKey "1.0.0-jre") "1.2.3-android" "1.2.3-jre" = -1
      ∧ CompareVersions native dateLike (guavaKey "1.0.0-android") "1.2.3-android" "1.2.3-jre"
          = 1
      ∧ CompareVersions native dateLike commonsIoKey "1.2.3" "20010101.000000" = 1 := by
  have ha1 : endsWith "2.3.4-android" "-android" = true := by decide
  have ha2 : endsWith "1.2.3-android" "-android" = true := by decide
  have hb : endsWith "1.2.3-jre" "-android" = false := by decide
  have hk1 : endsWith (guavaKey "1.0.0").Version "-android" = false := by decide
  have hk2 : endsWith (guavaKey "1.0.0-jre").Version "-android" = false := by decide
  have hk3 : endsWith (guavaKey "1.0.0-android").Version "-android" = true := by decide
  refine ⟨?_, ?_, ?_, ?_⟩
  · rw [compareVersions_guava native dateLike _ _ _ rfl, ha1, hb, hk1]; rfl
  · rw [compareVersions_guava native dateLike _ _ _ rfl, ha2, hb, hk2]; rfl
  · rw [compareVersions_guava native dateLike _ _ _ rfl, ha2, hb, hk3]; rfl
  · rw [compareVersions_commonsIo native dateLike _ _ _ rfl, hd1, hd2]; rfl

/-! ## Maven version comparator: settled statements -/

/-- C13 fails as stated: for the guava key of version 1.0.0-android, comparing
1.2.3-android with 1.2.3-jre yields 1 (the row of `TestCompareVersions` at
maven_test.go 135-140), not -1. -/
theorem compareVersions_android_key_not_lower :
    CompareVersions exampleNative exampleDateLike (guavaKey "1.0.0-android")
        "1.2.3-android" "1.2.3-jre" = 1
      ∧ ¬ (CompareVersions exampleNative exampleDateLike (guavaKey "1.0.0-android")
            "1.2.3-android" "1.2.3-jre" = -1) := by
  decide

/-- C13, amended: for com.google.guava:guava,
`CompareVersions(key, "1.2.3-android", "1.2.3-jre")` yields -1 when the key's
own version does not end in -android (as for the key 1.0.0-jre of the test),
and 1 when it does. -/
theorem compareVersions_android_vs_jre (native : String → String → Int)
    (dateLike : String → Bool) (vk : VersionKey)
    (hname : vk.Name = "com.google.guava:guava") :
    (endsWith vk.Version "-android" = false →
        CompareVersions native dateLike vk "1.2.3-android" "1.2.3-jre" = -1)
      ∧ (endsWith vk.Version "-android" = true →
          CompareVersions native dateLike vk "1.2.3-android" "1.2.3-jre" = 1) := by
  have ha : endsWith "1.2.3-android" "-android" = true := by decide
  have hb : endsWith "1.2.3-jre" "-android" = false := by decide
  constructor
  · intro hk
    rw [compareVersions_guava native dateLike vk _ _ hname, ha, hb, hk]; rfl
  · intro hk
    rw [compareVersions_guava native dateLike vk _ _ hname, ha, hb, hk]; rfl

/-- Witness for C13, amended: the key 1.0.0-jre of maven_test.go 129-134. -/
theorem compareVersions_android_vs_jre_witness :
    (guavaKey "1.0.0-jre").Name = "com.google.guava:guava"
      ∧ endsWith (guavaKey "1.0.0-jre").Version "-android" = false
      ∧ CompareVersions exampleNative exampleDateLike (guavaKey "1.0.0-jre")
          "1.2.3-android" "1.2.3-jre" = -1 :=
  ⟨rfl, by decide,
    (compareVersions_android_vs_jre exampleNative exampleDateLike (guavaKey "1.0.0-jre") rfl).1
      (by decide)⟩

/-- C14: for com.google.guava:guava the android/jre ordering follows the
flavour of the key's own version: for a ending in -android and b ending in
-jre, `CompareVersions(key, a, b)` is -1 when the key's version ends in -jre
and 1 when it ends in -android, whatever the numeric parts; when a and b have
the same flavour, or the package has no override, the result is the native
ordering of a and b. -/
theorem compareVersions_guava_follows_key_flavour (native : String → String → Int)
    (dateLike : String → Bool) (vk : VersionKey) (a b : String) :
    (vk.Name = "com.google.guava:guava" → endsWith a "-android" = true →
        endsWith b "-jre" = true →
          (endsWith vk.Version "-jre" = true → CompareVersions native dateLike vk a b = -1)
            ∧ (endsWith vk.Version "-android" = true →
                CompareVersions native dateLike vk a b = 1))
      ∧ (vk.Name = "com.google.guava:guava" →
          (endsWith a "-android" = true ∧ endsWith b "-android" = true)
            ∨ (endsWith a "-jre" = true ∧ endsWith b "-jre" = true) →
          CompareVersions native dateLike vk a b = native a b)
      ∧ (overrideTable.lookup vk.Name = none →
          CompareVersions native dateLike vk a b = native a b) := by
  refine ⟨?_, ?_, compareVersions_not_overridden native dateLike vk a b⟩
  · intro hname ha hb
    have hb2 := not_endsWith_android_of_jre b hb
    constructor
    · intro hk
      rw [compareVersions_guava native dateLike vk a b hname, ha, hb2,
        not_endsWith_android_of_jre vk.Version hk]
      rfl
    · intro hk
      rw [compareVersions_guava native dateLike vk a b hname, ha, hb2, hk]
      rfl
  · intro hname hsame
    rw [compareVersions_guava native dateLike vk a b hname]
    rcases hsame with ⟨ha, hb⟩ | ⟨ha, hb⟩
    · rw [ha, hb]; rfl
    · rw [not_endsWith_android_of_jre a ha, not_endsWith_android_of_jre b hb]; rfl

/-- Witness for C14: a jre-flavoured key ranks 2.3.4-android below 1.2.3-jre, an
android-flavoured key ranks it above, and a package without override keeps
the native ordering. -/
theorem compareVersions_guava_follows_key_flavour_witness :
    CompareVersions exampleNative exampleDateLike (guavaKey "1.0.0-jre")
        "2.3.4-android" "1.2.3-jre" = -1
      ∧ CompareVersions exampleNative exampleDateLike (guavaKey "1.0.0-android")
          "2.3.4-android" "1.2.3-jre" = 1
      ∧ CompareVersions exampleNative exampleDateLike (guavaKey "1.0.0") "1.2.3-jre" "2.3.4-jre"
          = exampleNative "1.2.3-jre" "2.3.4-jre"
      ∧ CompareVersions exampleNative exampleDateLike ⟨"Maven", "abc:xyz", "1.0.0"⟩
          "1.2.3" "2.3.4"
          = exampleNative "1.2.3" "2.3.4" :=
  ⟨((compareVersions_guava_follows_key_flavour exampleNative exampleDateLike
        (guavaKey "1.0.0-jre") "2.3.4-android" "1.2.3-jre").1 rfl (by decide) (by decide)).1
      (by decide),
    ((compareVersions_guava_follows_key_flavour exampleNative exampleDateLike
        (guavaKey "1.0.0-android") "2.3.4-android" "1.2.3-jre").1 rfl (by decide) (by decide)).2
      (by decide),
    (compareVersions_guava_follows_key_flavour exampleNative exampleDateLike (guavaKey "1.0.0")
        "1.2.3-jre" "2.3.4-jre").2.1 rfl (Or.inr ⟨by decide, by decide⟩),
    (compareVersions_guava_follows_key_flavour exampleNative exampleDateLike
        ⟨"Maven", "abc:xyz", "1.0.0"⟩ "1.2.3" "2.3.4").2.2 (by decide)⟩

/-- The override layer adds no violation of the ordering laws: if the native
ordering is reflexive-zero, antisymmetric and transitive, then so is
`CompareVersions` for every key and every date test.  Each override orders
versions by a two-valued class first and by the native ordering inside a
class. -/
theorem compareVersions_preserves_order_laws (native : String → String → Int)
    (dateLike : String → Bool)
    (hrefl : ∀ a, native a a = 0)
    (hanti : ∀ a b, native a b = - native b a)
    (htrans : ∀ a b c, native a b ≤ 0 → native b c ≤ 0 → native a c ≤ 0)
    (vk : VersionKey) (a b c : String) :
    CompareVersions native dateLike vk a a = 0
      ∧ CompareVersions native dateLike vk a b = - CompareVersions native dateLike vk b a
      ∧ (CompareVersions native dateLike vk a b ≤ 0 →
          CompareVersions native dateLike vk b c ≤ 0 →
          CompareVersions native dateLike vk a c ≤ 0) := by
  have hab := hanti a b
  have habc := htrans a b c
  unfold CompareVersions
  cases overrideTable.lookup vk.Name with
  | none => exact ⟨hrefl a, hab, habc⟩
  | some o =>
    cases o with
    | flavour =>
      dsimp only
      cases endsWith vk.Version "-android" <;> cases endsWith a "-android" <;>
        cases endsWith b "-android" <;> cases endsWith c "-android" <;>
        simp [hrefl a] <;> first | exact hab | exact habc | omega
    | dateLike =>
      dsimp only
      cases dateLike a <;> cases dateLike b <;> cases dateLike c <;>
        simp [hrefl a] <;> first | exact hab | exact habc | omega

/-! ## Resilient batch matcher: settled statement -/

theorem matchBatch_fold_length {α β : Type} (config : MatcherConfig) (noMatch : β)
    (lookup : α → Nat → LookupOutcome β) (items : List α) (order : List Nat) (acc : List β) :
    (order.foldl
        (fun results i =>
          match items[i]? with
          | some item => results.set i (matchItem noMatch lookup item config.MaxRetryAttempts 0)
          | none => results) acc).length = acc.length := by
  induction order generalizing acc with
  | nil => rfl
  | cons j rest ih =>
    rw [List.foldl_cons, ih]
    cases items[j]? with
    | none => rfl
    | some item => exact List.length_set _ _ _

theorem matchBatch_fold_slot {α β : Type} (config : MatcherConfig) (noMatch : β)
    (lookup : α → Nat → LookupOutcome β) (items : List α) (order : List Nat) (acc : List β)
    (i : Nat) (item : α) (hitem : items[i]? = some item) (hlen : i < acc.length) :
    (order.foldl
        (fun results i =>
          match items[i]? with
          | some item => results.set i (matchItem noMatch lookup item config.MaxRetryAttempts 0)
          | none => results) acc)[i]?
      = if i ∈ order then some (matchItem noMatch lookup item config.MaxRetryAttempts 0)
        else acc[i]? := by
  induction order generalizing acc with
  | nil => simp
  | cons j rest ih =>
    rw [List.foldl_cons]
    by_cases hji : j = i
    · subst hji
      rw [ih _ (by rw [hitem]; simpa using hlen)]
      simp only [hitem, List.mem_cons, true_or, if_true]
      split
      · rfl
      · exact List.getElem?_set_self hlen
    · have hlen2 : i < (match items[j]? with
          | some item => acc.set j (matchItem noMatch lookup item config.MaxRetryAttempts 0)
          | none => acc).length := by
        cases items[j]? with
        | none => exact hlen
        | some it => simpa using hlen
      rw [ih _ hlen2]
      have hne : ¬ i = j := fun h => hji h.symm
      simp only [List.mem_cons, hne, false_or]
      split
      · rfl
      · cases items[j]? with
        | none => rfl
        | some it => exact List.getElem?_set_ne hji

theorem matchItem_of_permanent {α β : Type} (noMatch : β) (lookup : α → Nat → LookupOutcome β)
    (item : α) (retries attempt : Nat) (h : lookup item attempt = LookupOutcome.permanent) :
    matchItem noMatch lookup item retries attempt = noMatch := by
  cases retries <;> simp [matchItem, h]

/-- C16: `MatchBatch` returns exactly `len(items)` results, the i-th result
belonging to the i-th item: it is the outcome of that item's lookup once its
worker has finished and the empty `noMatch` value before.  When every remote
lookup fails permanently, the batch still returns one result per item, each
being `noMatch`. -/
theorem matchBatch_one_result_per_item {α β : Type} (config : MatcherConfig) (noMatch : β)
    (lookup : α → Nat → LookupOutcome β) (items : List α) (completionOrder : List Nat) :
    (MatchBatch config noMatch lookup items completionOrder).length = items.length
      ∧ (∀ (i : Nat) (item : α), items[i]? = some item →
          (MatchBatch config noMatch lookup items completionOrder)[i]?
            = some (if i ∈ completionOrder then
                      matchItem noMatch lookup item config.MaxRetryAttempts 0
                    else noMatch))
      ∧ ((∀ (item : α) (attempt : Nat), lookup item attempt = LookupOutcome.permanent) →
          MatchBatch config noMatch lookup items completionOrder
            = List.replicate items.length noMatch) := by
  have hlen : (MatchBatch config noMatch lookup items completionOrder).length = items.length := by
    unfold MatchBatch
    rw [matchBatch_fold_length, List.length_replicate]
  have hslot : ∀ (i : Nat) (item : α), items[i]? = some item →
      (MatchBatch config noMatch lookup items completionOrder)[i]?
        = some (if i ∈ completionOrder then
                  matchItem noMatch lookup item config.MaxRetryAttempts 0
                else noMatch) := by
    intro i item hitem
    have hi : i < items.length := (List.getElem?_eq_some.1 hitem).1
    unfold MatchBatch
    rw [matchBatch_fold_slot config noMatch lookup items completionOrder _ i item hitem
      (by rw [List.length_replicate]; exact hi)]
    by_cases hmem : i ∈ completionOrder
    · simp [hmem]
    · simp [hmem, List.getElem?_replicate, hi]
  refine ⟨hlen, hslot, ?_⟩
  intro hperm
  apply List.ext_getElem?
  intro i
  by_cases hi : i < items.length
  · rw [hslot i items[i] (List.getElem?_eq_getElem hi),
      matchItem_of_permanent noMatch lookup _ _ _ (hperm _ _)]
    simp [List.getElem?_replicate, hi]
  · rw [List.getElem?_eq_none (by rw [hlen]; omega),
      List.getElem?_eq_none (by rw [List.length_replicate]; omega)]

/-- Witness for C16: two items whose workers finish in reverse order.  A remote
that fails permanently on every call leaves two empty results; a remote that
answers for `left-pad` on the second attempt fills slot 0 and leaves slot 1
empty. -/
theorem matchBatch_one_result_per_item_witness :
    MatchBatch exampleMatcherConfig [] alwaysPermanent ["left-pad", "lodash"] [1, 0]
        = List.replicate ["left-pad", "lodash"].length []
      ∧ MatchBatch exampleMatcherConfig [] flakyLicences ["left-pad", "lodash"] [1, 0]
        = [["MIT"], []] :=
  ⟨(matchBatch_one_result_per_item exampleMatcherConfig [] alwaysPermanent
      ["left-pad", "lodash"] [1, 0]).2.2 (fun _ _ => rfl),
    by decide⟩

/-! ## Frame of the vulnerability-level stage -/

/-- C21: `filterPackageVulns` returns its argument with only `Groups` and
`Vulnerabilities` replaced: the package identity, `DepGroups`, `Licenses` and
`LicenseViolations` are unchanged.  `filterResults` returns the results with
only `Results` replaced, and every reported source is, in order, an input
source with only `Packages` replaced. -/
theorem filter_frame (pkgVulns : PackageVulns) (configToUse : Config)
    (results : VulnerabilityResults) (configManager : ConfigManager) (allPackages : Bool) :
    ((filterPackageVulns pkgVulns configToUse).1
        = { pkgVulns with
            Groups := (filterPackageVulns pkgVulns configToUse).1.Groups,
            Vulnerabilities := (filterPackageVulns pkgVulns configToUse).1.Vulnerabilities }
      ∧ (filterPackageVulns pkgVulns configToUse).1.Package = pkgVulns.Package
      ∧ (filterPackageVulns pkgVulns configToUse).1.DepGroups = pkgVulns.DepGroups
      ∧ (filterPackageVulns pkgVulns configToUse).1.Licenses = pkgVulns.Licenses
      ∧ (filterPackageVulns pkgVulns configToUse).1.LicenseViolations
          = pkgVulns.LicenseViolations)
      ∧ ((filterResults results configManager allPackages).results
          = { results with
              Results := (filterResults results configManager allPackages).results.Results }
        ∧ (filterResults results configManager allPackages).results.LicenseSummary
            = results.LicenseSummary)
      ∧ ∃ keptSources : List PackageSource,
          keptSources.Sublist results.Results
            ∧ List.Forall₂
                (fun (out pkgSrc : PackageSource) =>
                  out = { pkgSrc with Packages := out.Packages }
                    ∧ out.Source = pkgSrc.Source)
                (filterResults results configManager allPackages).results.Results
                keptSources := by
  refine ⟨⟨rfl, rfl, rfl, rfl, rfl⟩, ⟨rfl, rfl⟩, ?_⟩
  refine ⟨results.Results.filter
      ((fun src : PackageSource => decide (src.Packages ≠ []))
        ∘ fun src => { src with Packages := reportedPackages configManager allPackages src }),
    List.filter_sublist _, ?_⟩
  rw [filterResults_results, List.filter_map, List.forall₂_map_left_iff, List.forall₂_same]
  intro src _
  exact ⟨rfl, rfl⟩

/-! ## Messages of the vulnerability-level stage -/

theorem firstIgnoreLine_eq_find (c : Config) (aliases : List String) :
    firstIgnoreLine c aliases
      = (aliases.find? (fun id => (c.ShouldIgnore id).1)).map (fun id => (c.ShouldIgnore id).2) := by
  induction aliases with
  | nil => rfl
  | cons id rest ih =>
    unfold firstIgnoreLine
    rcases h : c.ShouldIgnore id with ⟨b, e⟩
    cases b
    · simp [List.find?_cons, h, ih]
    · simp [List.find?_cons, h]

theorem find_length_pos (test : String → Bool) (aliases : List String) (id : String)
    (h : aliases.find? test = some id) : 0 < aliases.length := by
  cases aliases with
  | nil => simp at h
  | cons x xs => simp

/-- The lines that one turn of the group loop adds to the log are the message
prescribed for the group, if any. -/
theorem filterGroupStep_log (c : Config) (st : GroupLoopState) (g : GroupInfo) :
    (filterGroupStep c st g).log = st.log ++ (ignoredGroupMessage c g).toList := by
  unfold filterGroupStep ignoredGroupMessage filteredOutMessage
  rw [firstIgnoreLine_eq_find]
  cases hf : g.Aliases.find? (fun id => (c.ShouldIgnore id).1) with
  | none => simp
  | some id =>
    have hpos := find_length_pos _ _ _ hf
    simp only [Option.map_some', beq_iff_eq]
    rcases hlen : g.Aliases.length with _ | _ | _ | n
    · omega
    · simp
    · simp
    · have hcast : ((n : Int) + 1 + 1) = Int.ofNat (n + 1 + 1) := by simp
      have hs : toString ((n : Int) + 1 + 1) = toString (n + 1 + 1) := by
        rw [hcast]
        rfl
      simp [hs]

theorem foldl_filterGroupStep_log (c : Config) (groups : List GroupInfo) (st : GroupLoopState) :
    (groups.foldl (filterGroupStep c) st).log
      = st.log ++ groups.filterMap (ignoredGroupMessage c) := by
  induction groups generalizing st with
  | nil => simp
  | cons g gs ih =>
    rw [List.foldl_cons, ih, filterGroupStep_log]
    cases h : ignoredGroupMessage c g <;> simp [List.filterMap_cons, h]

theorem ignoredGroupMessage_isSome (c : Config) (g : GroupInfo) :
    (ignoredGroupMessage c g).isSome = true
      ↔ ∃ id ∈ g.Aliases, (c.ShouldIgnore id).1 = true := by
  unfold ignoredGroupMessage
  cases hf : g.Aliases.find? (fun id => (c.ShouldIgnore id).1) with
  | none =>
    rw [List.find?_eq_none] at hf
    simp only [Option.isSome_none, Bool.false_eq_true, false_iff]
    rintro ⟨id, hid, hm⟩
    exact hf id hid hm
  | some id =>
    have hmem := List.mem_of_find?_eq_some hf
    have hm := List.find?_some hf
    exact ⟨fun _ => ⟨id, hmem, hm⟩, fun _ => rfl⟩

theorem find_first_match (test : String → Bool) (before after : List String) (id : String)
    (hbefore : ∀ x ∈ before, test x = false) (hid : test id = true) :
    (before ++ id :: after).find? test = some id := by
  induction before with
  | nil => simp [List.find?_cons, hid]
  | cons x xs ih =>
    have hx := hbefore x (List.mem_cons_self x xs)
    simp only [List.cons_append, List.find?_cons, hx]
    exact ih (fun y hy => hbefore y (List.mem_cons_of_mem x hy))

/-- C22: `filterPackageVulns` emits, in group order, exactly one informational
message for every group that has an alias matching `ShouldIgnore` and none for
any other group.  The message is built from the ignore entry of the first
alias, in alias order, that matches: "<id> has been filtered out because:
<reason>" for a group of 1 alias, "<id> and 1 alias have been filtered out
because: <reason>" for 2 aliases, and "<id> and N aliases have been filtered
out because: <reason>" with N the number of aliases minus 1 otherwise, where
<id> is the entry's id and <reason> is "(no reason given)" when the entry's
reason is empty. -/
theorem filterPackageVulns_messages (pkgVulns : PackageVulns) (configToUse : Config) :
    (filterPackageVulns pkgVulns configToUse).2
        = pkgVulns.Groups.filterMap (ignoredGroupMessage configToUse)
      ∧ (∀ group : GroupInfo,
          (∀ id ∈ group.Aliases, (configToUse.ShouldIgnore id).1 = false) →
            ignoredGroupMessage configToUse group = none)
      ∧ (∀ (group : GroupInfo) (before after : List String) (id : String),
          group.Aliases = before ++ id :: after →
          (∀ x ∈ before, (configToUse.ShouldIgnore x).1 = false) →
          (configToUse.ShouldIgnore id).1 = true →
            ignoredGroupMessage configToUse group
              = some (filteredOutMessage (configToUse.ShouldIgnore id).2 group.Aliases.length))
      ∧ (∀ entry : IgnoreEntry,
          filteredOutMessage entry 1
              = entry.ID ++ " has been filtered out because: "
                ++ (if entry.Reason = "" then "(no reason given)" else entry.Reason)
            ∧ filteredOutMessage entry 2
              = entry.ID ++ " and 1 alias have been filtered out because: "
                ++ (if entry.Reason = "" then "(no reason given)" else entry.Reason)
            ∧ ∀ n : Nat, 3 ≤ n →
                filteredOutMessage entry n
                  = entry.ID ++ " and " ++ toString (n - 1)
                    ++ " aliases have been filtered out because: "
                    ++ (if entry.Reason = "" then "(no reason given)" else entry.Reason)) := by
  refine ⟨?_, ?_, ?_, ?_⟩
  · have h := foldl_filterGroupStep_log configToUse pkgVulns.Groups ⟨[], [], []⟩
    simpa [filterPackageVulns] using h
  · intro group hnone
    cases hm : ignoredGroupMessage configToUse group with
    | none => rfl
    | some line =>
      have hsome : (ignoredGroupMessage configToUse group).isSome = true := by simp [hm]
      obtain ⟨id, hid, hmatch⟩ := (ignoredGroupMessage_isSome _ _).1 hsome
      rw [hnone id hid] at hmatch
      exact absurd hmatch (by decide)
  · intro group before after id haliases hbefore hid
    unfold ignoredGroupMessage
    have hfind := find_first_match (fun id => (configToUse.ShouldIgnore id).1) before after id
      hbefore hid
    rw [← haliases] at hfind
    rw [hfind]
  · intro entry
    refine ⟨by simp [filteredOutMessage], by simp [filteredOutMessage], ?_⟩
    intro n hn
    have h1 : ¬ n = 1 := by omega
    have h2 : ¬ n = 2 := by omega
    simp [filteredOutMessage, h1, h2]

/-- Witness for C22: four groups, of which three are ignored.  The group of
four aliases is matched by two different rules and reports only the first;
the rule without a reason reports "(no reason given)"; the group that no
rule matches reports nothing. -/
theorem filterPackageVulns_messages_witness :
    (filterPackageVulns severalGroupsPackage ignoreSeveral).2
      = ["GHSA-1 and 1 alias have been filtered out because: accepted risk",
         "CVE-9 has been filtered out because: (no reason given)",
         "OSV-3 and 3 aliases have been filtered out because: first rule"] :=
  (filterPackageVulns_messages severalGroupsPackage ignoreSeveral).1.trans (by decide)

end OsvScanner
